import Mathlib

/-!
Formal model of the `city` terminal skyline generator (sources:
`src/city.rs`, `src/vec2d.rs`).  The Rust code is shallowly embedded:
machine integers become `Nat` (with explicit `% 2^32` where `u32`
wrapping matters), the fallible operations (slice indexing, checked
subtraction in debug builds, empty random ranges, division by zero)
become `Option`-valued functions, and the external `fastrand::Rng`
crate is abstracted as a deterministic state machine `RngModel` over a
`Nat` seed state, threaded exactly in the order the code consumes it.
-/

namespace CityModel

/-! ## Definitions: embedding of `vec2d.rs` and `city.rs`, the
abstract RNG model, derived pure functions, spec-modelled variants,
invariants and concrete instances -/

/-- Checked subtraction: `a - b` on Rust unsigned integers, which traps
on underflow. -/
def csub (a b : Nat) : Option Nat := if b ≤ a then some (a - b) else none

/-- `2^32`, the modulus of `u32` arithmetic. -/
def U32 : Nat := 4294967296

/-- `Vec2D<T>`: flat row-major 2D buffer (`data`, `size_x`, `size_y`).
The capacity of the backing vector always equals `size_x * size_y`
(allocated by `Vec2D::new`, which is the only constructor). -/
structure Vec2D (α : Type) where
  data : List α
  size_x : Nat
  size_y : Nat
deriving Repr, DecidableEq

/-- `Vec2D::new(size_x, size_y, init)` with a constant initializer:
allocates `size_x * size_y` cells and fills them. -/
def Vec2D.new (size_x size_y : Nat) (c : α) : Vec2D α :=
  { data := List.replicate (size_x * size_y) c, size_x := size_x, size_y := size_y }

/-- `Vec2D::fill_with(f)`: clears the buffer and refills it to capacity
(`size_x * size_y`) with the constant `f`. -/
def Vec2D.fill_with (v : Vec2D α) (c : α) : Vec2D α :=
  { v with data := List.replicate (v.size_x * v.size_y) c }

/-- `raw_idx(size_x, (x, y)) = y * size_x + x`. -/
def raw_idx (size_x : Nat) (x y : Nat) : Nat := y * size_x + x

/-- `Vec2D::get_row(y) = &data[y*size_x..][..size_x]`; Rust slicing
panics when `y*size_x + size_x` exceeds the buffer length. -/
def Vec2D.get_row? (v : Vec2D α) (y : Nat) : Option (List α) :=
  if raw_idx v.size_x 0 y + v.size_x ≤ v.data.length then
    some ((v.data.drop (raw_idx v.size_x 0 y)).take v.size_x)
  else none

/-- One assignment `r[j] = c` into the mutable row slice returned by
`get_row_mut(y)`: panics if the row is out of range or `j ≥ size_x`. -/
def Vec2D.setCell? (v : Vec2D α) (y j : Nat) (c : α) : Option (Vec2D α) :=
  if raw_idx v.size_x 0 y + v.size_x ≤ v.data.length ∧ j < v.size_x then
    some { v with data := v.data.set (raw_idx v.size_x j y) c }
  else none

/-- Read one cell of the buffer (for stating theorems). -/
def Vec2D.getCell? (v : Vec2D α) (j y : Nat) : Option α :=
  v.data.get? (raw_idx v.size_x j y)

/-- `(0..n).step_by(s)`: the iterator yielding `0, s, 2s, …` below `n`;
`step_by(0)` panics. -/
def rangeStepBy (s n : Nat) : Option (List Nat) :=
  if s = 0 then none else some ((List.range ((n + s - 1) / s)).map (· * s))

/-- `Vec2D::row_iter()`: `(0..size_x*size_y).step_by(size_x).map(|y| get_row(y))`.
Each yielded element is the (possibly out-of-range) `get_row` lookup. -/
def Vec2D.row_iter (v : Vec2D α) : Option (List (Option (List α))) :=
  (rangeStepBy v.size_x (v.size_x * v.size_y)).map (fun l => l.map v.get_row?)

def TICK_WRAP : Nat := 1073741823

def PROBABILITY_CURVE : ℚ := 5 / 2

def COLLISION_GAP : Nat := 2

def ROOF_GAP_X : Nat := 2

def ROOF_GAP_Y : Nat := 1

def WINDOW_X : Nat := 2

def WINDOW_Y : Nat := 1

def WINDOW_PAD_T : Nat := 2

def WINDOW_PAD_B : Nat := 2

def WINDOW_PAD_L : Nat := 3

def WINDOW_PAD_R : Nat := 4

def WINDOW_SPC_Y : Nat := 1

def WINDOW_SPC_X : Nat := 2

/-- One byte-absorption round of `Hash::inc_seed_u32`. -/
def hashRound (seed h : Nat) (i : Nat) : Nat :=
  let h1 := (h + ((seed >>> (8 * i)) &&& 0xff)) % U32
  let h2 := (h1 + ((h1 <<< 10) % U32)) % U32
  h2 ^^^ (h2 >>> 6)

/-- `Hash::inc_seed_u32(seed)`: absorb the four bytes of a `u32`. -/
def inc_seed_u32 (h seed : Nat) : Nat :=
  (List.range 4).foldl (hashRound seed) h

/-- The value returned by `Hash::reset_final` (the accumulator itself is
reset to `0`, which the callers below do explicitly). -/
def reset_final (h : Nat) : Nat :=
  let h1 := (h + ((h <<< 3) % U32)) % U32
  let h2 := h1 ^^^ (h1 >>> 11)
  (h2 + ((h2 <<< 15) % U32)) % U32

structure RngModel where
  f32 : Nat → ℚ × Nat
  u32 : Nat → Nat × Nat
  u64 : Nat → Nat × Nat
  usizeLt : Nat → Nat → Nat × Nat
  usizeRange : Nat → Nat → Nat → Nat × Nat
  powf : ℚ → ℚ → ℚ

/-- `rng.f32()` yields a value in `[0, 1)`. -/
def RngModel.F32Sound (R : RngModel) : Prop :=
  ∀ s, 0 ≤ (R.f32 s).1 ∧ (R.f32 s).1 < 1

/-- `rng.usize(..n)` yields a value `< n` (for nonempty ranges). -/
def RngModel.SizeLtSound (R : RngModel) : Prop :=
  ∀ n s, 0 < n → (R.usizeLt n s).1 < n

/-- `rng.usize(a..=b)` yields a value in `[a, b]` (for nonempty ranges). -/
def RngModel.SizeRangeSound (R : RngModel) : Prop :=
  ∀ a b s, a ≤ b → a ≤ (R.usizeRange a b s).1 ∧ (R.usizeRange a b s).1 ≤ b

/-- `rng.usize(..n)`: fastrand panics on an empty range. -/
def rngUsizeLt (R : RngModel) (n s : Nat) : Option (Nat × Nat) :=
  if n = 0 then none else some (R.usizeLt n s)

/-- `rng.usize(a..=b)`: fastrand panics on an empty range. -/
def rngUsizeRange (R : RngModel) (a b s : Nat) : Option (Nat × Nat) :=
  if a ≤ b then some (R.usizeRange a b s) else none

/-- `struct Building`. -/
structure Building where
  size_x : Nat
  size_y : Nat
  spawn_tick : Nat
  color : Nat
  seed : Nat
deriving Repr, DecidableEq

/-- `struct LayerDesc` (`density`/`collision` are `f32`, modelled as `ℚ`). -/
structure LayerDesc where
  density : ℚ
  collision : ℚ
  speed : Nat
  wall_color : List Nat
  draw_windows : Bool
  window_colors : List Nat
deriving Repr, DecidableEq

/-- `struct Layer`. -/
structure Layer where
  ring : List Building
  rightmost_building_rcx : Nat
deriving Repr, DecidableEq

/-- `struct City`: the `&Rng` handle becomes an owned `Nat` state. -/
structure City where
  rng : Nat
  size : Nat × Nat
  step : Nat
  tick : Nat
  background : Nat
  layers_desc : List LayerDesc
  layers : List Layer
  canvas : Vec2D Nat
deriving Repr, DecidableEq

/-- `City::new`. -/
def City.new (width height : Nat) (step : Nat) (rng : Nat) (bg_color : Nat)
    (layers : List LayerDesc) : City :=
  { rng := rng, step := step, size := (width, height), tick := 1,
    background := bg_color,
    canvas := Vec2D.new width height bg_color,
    layers := List.replicate layers.length ⟨[], 0⟩,
    layers_desc := layers }

/-- `City::set_wh`. -/
def City.set_wh (c : City) (w h : Nat) : City :=
  { c with size := (w, h), canvas := Vec2D.new w h c.background }

/-- One iteration of the inner `for x in row_x()` loop of a window row
(the branch where `wnd_drawn_y` becomes true).  The state is
`(hash, rngst, wnd_clr, canvas)`. -/
def drawWndCell (R : RngModel) (wnd_colors : List Nat)
    (wall_color seed_fill y wnd_lim_x cy_row cx ox : Nat)
    (st : Nat × Nat × Nat × Vec2D Nat) (x : Nat) :
    Option (Nat × Nat × Nat × Vec2D Nat) :=
  let (hash, rngst, wnd_clr, canvas) := st
  if WINDOW_PAD_L ≤ x ∧ x < wnd_lim_x then
    let cwnd_pos_x := (x - WINDOW_PAD_L) % (WINDOW_X + WINDOW_SPC_X)
    if cwnd_pos_x = 0 then
      let h1 := inc_seed_u32 (inc_seed_u32 (inc_seed_u32 hash 0xdeadbeef) (x % U32)) (y % U32)
      let hv := reset_final h1
      let rng1 := Nat.lor (seed_fill <<< 32) hv
      match rngUsizeLt R wnd_colors.length rng1 with
      | none => none
      | some (i, rng2) =>
        match wnd_colors.get? i with
        | none => none
        | some wc =>
          (canvas.setCell? cy_row (cx + (x - ox)) wc).map (fun c2 => (0, rng2, wc, c2))
    else if cwnd_pos_x < WINDOW_X then
      (canvas.setCell? cy_row (cx + (x - ox)) wnd_clr).map
        (fun c2 => (hash, rngst, wnd_clr, c2))
    else
      (canvas.setCell? cy_row (cx + (x - ox)) wall_color).map
        (fun c2 => (hash, rngst, wnd_clr, c2))
  else
    (canvas.setCell? cy_row (cx + (x - ox)) wall_color).map
      (fun c2 => (hash, rngst, wnd_clr, c2))

/-- The window-row `for x` loop, running `n` cells starting at `x`. -/
def wndRowLoop (R : RngModel) (wnd_colors : List Nat)
    (wall_color seed_fill y wnd_lim_x cy_row cx ox : Nat) :
    Nat → Nat → Nat × Nat × Nat × Vec2D Nat → Option (Nat × Nat × Nat × Vec2D Nat)
  | 0, _, st => some st
  | n + 1, x, st =>
    (drawWndCell R wnd_colors wall_color seed_fill y wnd_lim_x cy_row cx ox st x).bind
      (wndRowLoop R wnd_colors wall_color seed_fill y wnd_lim_x cy_row cx ox n (x + 1))

/-- The plain-wall row loop (`!wnd_drawn_y` branch): every visible cell
gets the wall color. -/
def wallRowLoop (wall_color cy_row cx ox : Nat) :
    Nat → Nat → Vec2D Nat → Option (Vec2D Nat)
  | 0, _, canvas => some canvas
  | n + 1, x, canvas =>
    (canvas.setCell? cy_row (cx + (x - ox)) wall_color).bind
      (wallRowLoop wall_color cy_row cx ox n (x + 1))

/-- The roof-row loop (`y < ROOF_GAP_Y`): wall color only strictly
inside the roof margins, other cells untouched. -/
def roofRowLoop (wall_color right_gap_x cy_row cx ox : Nat) :
    Nat → Nat → Vec2D Nat → Option (Vec2D Nat)
  | 0, _, canvas => some canvas
  | n + 1, x, canvas =>
    (if ROOF_GAP_X ≤ x ∧ x < right_gap_x then
        canvas.setCell? cy_row (cx + (x - ox)) wall_color
      else some canvas).bind
      (roofRowLoop wall_color right_gap_x cy_row cx ox n (x + 1))

/-- One iteration of the outer `for y in oy..oy+ih` loop.  The state is
`(hash, rngst, canvas)`; `wnd_clr` is re-initialized to the wall color
(source line 261) at the start of every window row. -/
def drawRowY (R : RngModel) (wnd_colors : List Nat) (wnd_draw : Prop)
    [Decidable wnd_draw]
    (wall_color seed_fill right_gap_x wnd_lim_x wnd_lim_y cx cy ox oy iw : Nat)
    (st : Nat × Nat × Vec2D Nat) (y : Nat) : Option (Nat × Nat × Vec2D Nat) :=
  let (hash, rngst, canvas) := st
  let cy_row := cy + (y - oy)
  let wnd_fst_y := ROOF_GAP_Y + WINDOW_PAD_T
  if y < ROOF_GAP_Y then
    (roofRowLoop wall_color right_gap_x cy_row cx ox iw ox canvas).map
      (fun c2 => (hash, rngst, c2))
  else
    if wnd_draw ∧ wnd_fst_y ≤ y ∧ y < wnd_lim_y ∧
        (y - wnd_fst_y) % (WINDOW_Y + WINDOW_SPC_Y) < WINDOW_Y then
      (wndRowLoop R wnd_colors wall_color seed_fill y wnd_lim_x cy_row cx ox
          iw ox (hash, rngst, wall_color, canvas)).map
        (fun st2 => (st2.1, st2.2.1, st2.2.2.2))
    else
      (wallRowLoop wall_color cy_row cx ox iw ox canvas).map
        (fun c2 => (hash, rngst, c2))

/-- The `for y` loop of `draw_building`, running `n` rows starting at `y`. -/
def rowsLoop (R : RngModel) (wnd_colors : List Nat) (wnd_draw : Prop)
    [Decidable wnd_draw]
    (wall_color seed_fill right_gap_x wnd_lim_x wnd_lim_y cx cy ox oy iw : Nat) :
    Nat → Nat → Nat × Nat × Vec2D Nat → Option (Nat × Nat × Vec2D Nat)
  | 0, _, st => some st
  | n + 1, y, st =>
    (drawRowY R wnd_colors wnd_draw wall_color seed_fill right_gap_x wnd_lim_x
        wnd_lim_y cx cy ox oy iw st y).bind
      (rowsLoop R wnd_colors wnd_draw wall_color seed_fill right_gap_x wnd_lim_x
        wnd_lim_y cx cy ox oy iw n (y + 1))

/-- `draw_building(canvas, b, layer, pos_xy, offset_xy, limits_xy)`. -/
def draw_building (R : RngModel) (canvas : Vec2D Nat) (b : Building)
    (layer : LayerDesc) (pos_xy offset_xy limits_xy : Nat × Nat) :
    Option (Vec2D Nat) :=
  let (ox, oy) := offset_xy
  let (lw, lh) := limits_xy
  let (cx, cy) := pos_xy
  let (sw, sh) := (b.size_x, b.size_y)
  let (iw, ih) := (min sw lw, min sh lh)
  if lw = 0 ∨ lh = 0 ∨ sw < ROOF_GAP_X * 2 ∨
      sw < WINDOW_PAD_L + WINDOW_PAD_R + WINDOW_X then
    some canvas
  else
    let rng0 := b.seed
    let (seed_fill, rng1) := R.u32 rng0
    match csub sw ROOF_GAP_X, csub sw WINDOW_PAD_R, csub sh WINDOW_PAD_B with
    | some right_gap_x, some wnd_lim_x, some wnd_lim_y =>
      let wnd_draw := layer.draw_windows = true ∧ 0 < layer.window_colors.length
      (rowsLoop R layer.window_colors wnd_draw b.color seed_fill right_gap_x
          wnd_lim_x wnd_lim_y cx cy ox oy iw ih oy (0, rng1, canvas)).map
        (fun st => st.2.2)
    | _, _, _ => none

/-- The wrap-adjusted current tick for a building (lines 144-147). -/
def wrapTick (tick : Nat) (b : Building) : Nat :=
  if b.spawn_tick > tick then tick + TICK_WRAP else tick

/-- `x` before clamping, computed in `i32` (line 150). -/
def xRaw (sx step speed : Nat) (elapsed : Nat) : Int :=
  (sx : Int) - ((elapsed * step / speed : Nat) : Int)

/-- `(offset_x, x)` (line 151). -/
def offXPair (xi : Int) : Nat × Nat :=
  if xi < 0 then (xi.natAbs, 0) else (0, xi.toNat)

/-- `(offset_y, y)` (line 152). -/
def offYPair (sy : Nat) (b : Building) : Nat × Nat :=
  if b.size_y > sy then (b.size_y - sy, 0) else (0, sy - b.size_y)

/-- The body of the draw-pass loop for one popped building (lines
139-165).  Returns the updated rightmost accumulator and canvas, and
whether the building is re-queued (`false` = evicted). -/
def processBuilding (R : RngModel) (d : LayerDesc) (sx sy step tick : Nat)
    (rc : Nat) (canvas : Vec2D Nat) (b : Building) :
    Option (Nat × Vec2D Nat × Bool) :=
  let wt := wrapTick tick b
  match csub wt b.spawn_tick with
  | none => none
  | some elapsed =>
    if d.speed = 0 then none
    else
      let xi := xRaw sx step d.speed elapsed
      let (offset_x, x) := offXPair xi
      let (offset_y, y) := offYPair sy b
      if offset_x > b.size_x then
        some (rc, canvas, false)
      else
        match csub sx x with
        | none => none
        | some sxmx =>
          let w := min (b.size_x - offset_x) sxmx
          let h := min (b.size_y - offset_y) sy
          let rc1 := max rc (x + b.size_x + COLLISION_GAP)
          match draw_building R canvas b d (x, y) (offset_x, offset_y) (w, h) with
          | none => none
          | some canvas1 => some (rc1, canvas1, true)

/-- The draw-pass loop (`for _ in 0..b_count`, lines 138-166): pop the
front of the ring, process it, push it back if it survives. -/
def drawPass (R : RngModel) (d : LayerDesc) (sx sy step tick : Nat) :
    Nat → Nat × Vec2D Nat × List Building →
    Option (Nat × Vec2D Nat × List Building)
  | 0, st => some st
  | n + 1, (rc, canvas, ring) =>
    match ring with
    | [] => some (rc, canvas, [])
    | b :: ring1 =>
      match processBuilding R d sx sy step tick rc canvas b with
      | none => none
      | some (rc1, canvas1, keep) =>
        drawPass R d sx sy step tick n
          (rc1, canvas1, if keep then ring1 ++ [b] else ring1)

/-- The spawn step for one layer (lines 118-133).  Returns the updated
ring and RNG state.  The `&&` of line 121 short-circuits: the `f32`
draw happens only on moving ticks, and `tick % speed` traps when
`speed = 0`. -/
def spawnStep (R : RngModel) (sx sy tick : Nat) (d : LayerDesc) (l : Layer)
    (rngst : Nat) : Option (List Building × Nat) :=
  let threshold := if l.rightmost_building_rcx > sx then d.collision else d.density
  if d.speed = 0 then none
  else if tick % d.speed = 0 then
    let (r, rng1) := R.f32 rngst
    if r < R.powf threshold PROBABILITY_CURVE then
      let colors_len := d.wall_color.length
      match (if colors_len > 1 then rngUsizeLt R colors_len rng1 else some (0, rng1)) with
      | none => none
      | some (color_i, rng2) =>
        match rngUsizeRange R 6 25 rng2 with
        | none => none
        | some (bsx, rng3) =>
          match rngUsizeRange R 10 (sy + 2) rng3 with
          | none => none
          | some (bsy, rng4) =>
            match d.wall_color.get? color_i with
            | none => none
            | some wc =>
              let (sd, rng5) := R.u64 rng4
              some (l.ring ++ [⟨bsx, bsy, tick, wc, sd⟩], rng5)
    else some (l.ring, rng1)
  else some (l.ring, rngst)

/-- One iteration of the `for (d, l) in layers_desc.iter().zip(...)`
loop: spawn step, then the draw pass over the ring's current length
(taken after the spawn step, line 137), then store the recomputed
rightmost extent (line 168). -/
def cityLayerStep (R : RngModel) (sx sy step tick : Nat)
    (acc : Nat × Vec2D Nat × List Layer) (dl : LayerDesc × Layer) :
    Option (Nat × Vec2D Nat × List Layer) :=
  let (rngst, canvas, out) := acc
  let (d, l) := dl
  match spawnStep R sx sy tick d l rngst with
  | none => none
  | some (ring1, rng1) =>
    match drawPass R d sx sy step tick ring1.length (0, canvas, ring1) with
    | none => none
    | some (rc, canvas1, ring2) =>
      some (rng1, canvas1, out ++ [⟨ring2, rc⟩])

/-- The per-layer loop of `next_tick`. -/
def layersLoop (R : RngModel) (sx sy step tick : Nat) :
    List (LayerDesc × Layer) → Nat × Vec2D Nat × List Layer →
    Option (Nat × Vec2D Nat × List Layer)
  | [], acc => some acc
  | dl :: rest, acc =>
    (cityLayerStep R sx sy step tick acc dl).bind
      (layersLoop R sx sy step tick rest)

/-- `City::next_tick`. -/
def next_tick (R : RngModel) (c : City) : Option City :=
  let (sx, sy) := c.size
  let canvas0 := c.canvas.fill_with c.background
  match layersLoop R sx sy c.step c.tick (c.layers_desc.zip c.layers)
      (c.rng, canvas0, []) with
  | none => none
  | some (rng1, canvas1, layers1) =>
    let tick1 := c.tick + 1
    let tick2 := if tick1 > TICK_WRAP then 1 else tick1
    some { c with rng := rng1, canvas := canvas1, layers := layers1, tick := tick2 }

/-- `next_tick` iterated `t` times from a given state. -/
def runTicks (R : RngModel) (c : City) : Nat → Option City
  | 0 => some c
  | t + 1 => (runTicks R c t).bind (next_tick R)

/-- The window color chosen at a window-start cell `(x, y)`: the
Jenkins hash of the salt, column and row (finalized from a fresh
accumulator) is combined with the building's fill seed to re-seed the
generator, which picks an index into the window color set. -/
def wndHashColor (R : RngModel) (wnd_colors : List Nat)
    (seed_fill x y : Nat) : Nat :=
  let h1 := inc_seed_u32 (inc_seed_u32 (inc_seed_u32 0 0xdeadbeef) (x % U32)) (y % U32)
  let hv := reset_final h1
  wnd_colors.getD ((R.usizeLt wnd_colors.length (Nat.lor (seed_fill <<< 32) hv)).1) 0

/-- The color painted at in-building cell `(x, y)` of a window row, as
a pure function of the building and descriptor only (no scroll offset,
no clipping): wall color outside the padded window region and between
window cells, the cell's hash-drawn color on its two window columns. -/
def pureWndColor (R : RngModel) (d : LayerDesc) (b : Building)
    (x y : Nat) : Nat :=
  let seed_fill := (R.u32 b.seed).1
  let wnd_lim_x := b.size_x - WINDOW_PAD_R
  if WINDOW_PAD_L ≤ x ∧ x < wnd_lim_x then
    let p := (x - WINDOW_PAD_L) % (WINDOW_X + WINDOW_SPC_X)
    if p = 0 then wndHashColor R d.window_colors seed_fill x y
    else if p = 1 then wndHashColor R d.window_colors seed_fill (x - 1) y
    else b.color
  else b.color

def rngC : RngModel where
  f32 := fun s => (0, s + 1)
  u32 := fun s => (0, s + 1)
  u64 := fun s => (0, s + 1)
  usizeLt := fun _ s => (0, s + 1)
  usizeRange := fun a _ s => (a, s + 1)
  powf := fun t _ => t

/-- Well-formedness of a buffer of dimensions `sx × sy`. -/
def Vec2D.Dim (v : Vec2D α) (sx sy : Nat) : Prop :=
  v.size_x = sx ∧ v.size_y = sy ∧ v.data.length = sx * sy

/-- The color a window-row loop starting at column `x0` with incoming
held window color `wcl` paints at column `x`. -/
def wndCellColor (R : RngModel) (wnd_colors : List Nat)
    (wall seed_fill y wnd_lim_x x0 wcl x : Nat) : Nat :=
  if WINDOW_PAD_L ≤ x ∧ x < wnd_lim_x then
    if (x - WINDOW_PAD_L) % (WINDOW_X + WINDOW_SPC_X) = 0 then
      wndHashColor R wnd_colors seed_fill x y
    else if (x - WINDOW_PAD_L) % (WINDOW_X + WINDOW_SPC_X) = 1 then
      if x0 < x then wndHashColor R wnd_colors seed_fill (x - 1) y else wcl
    else wall
  else wall

/-- The unwrapped elapsed tick count of a building. -/
def elapsedOf (tick : Nat) (b : Building) : Nat := wrapTick tick b - b.spawn_tick

/-- The `offset_x` computed for a building in the draw pass. -/
def offXOf (sx step speed tick : Nat) (b : Building) : Nat :=
  (offXPair (xRaw sx step speed (elapsedOf tick b))).1

/-- The clamped `x` position computed for a building in the draw pass. -/
def xPosOf (sx step speed tick : Nat) (b : Building) : Nat :=
  (offXPair (xRaw sx step speed (elapsedOf tick b))).2

/-- Whether the draw pass keeps (re-queues) a building: the complement
of the sole eviction test `offset_x > size_x`. -/
def keepB (sx step speed tick : Nat) (b : Building) : Bool :=
  decide (offXOf sx step speed tick b ≤ b.size_x)

/-- The fold computing a layer's recomputed rightmost extent over the
processed buildings. -/
def rcFold (sx step speed tick : Nat) (rc : Nat) (bs : List Building) : Nat :=
  bs.foldl (fun m b => if keepB sx step speed tick b then
    max m (xPosOf sx step speed tick b + b.size_x + COLLISION_GAP) else m) rc

/-- The spawn condition of lines 118-121: moving tick and a winning
probability draw against `threshold^2.5`. -/
def spawnCond (R : RngModel) (sx tick : Nat) (d : LayerDesc) (l : Layer)
    (rngst : Nat) : Prop :=
  tick % d.speed = 0 ∧ (R.f32 rngst).1 <
    R.powf (if l.rightmost_building_rcx > sx then d.collision else d.density)
      PROBABILITY_CURVE

/-- The building constructed by a successful spawn (lines 122-131). -/
def spawnBuilding (R : RngModel) (sy tick : Nat) (d : LayerDesc)
    (rngst : Nat) : Building :=
  let rng1 := (R.f32 rngst).2
  let cl := d.wall_color.length
  let ci := if 1 < cl then (R.usizeLt cl rng1).1 else 0
  let rng2 := if 1 < cl then (R.usizeLt cl rng1).2 else rng1
  let rng3 := (R.usizeRange 6 25 rng2).2
  { size_x := (R.usizeRange 6 25 rng2).1,
    size_y := (R.usizeRange 10 (sy + 2) rng3).1,
    spawn_tick := tick,
    color := d.wall_color.getD ci 0,
    seed := (R.u64 (R.usizeRange 10 (sy + 2) rng3).2).1 }

/-- The RNG state after a successful spawn. -/
def spawnRngOut (R : RngModel) (sy : Nat) (d : LayerDesc)
    (rngst : Nat) : Nat :=
  let rng1 := (R.f32 rngst).2
  let cl := d.wall_color.length
  let rng2 := if 1 < cl then (R.usizeLt cl rng1).2 else rng1
  let rng3 := (R.usizeRange 6 25 rng2).2
  (R.u64 (R.usizeRange 10 (sy + 2) rng3).2).2

/-- The configuration preconditions on one layer descriptor. -/
structure GoodDesc (d : LayerDesc) : Prop where
  speed_pos : 0 < d.speed
  wall_nonempty : d.wall_color ≠ []
  density_nonneg : 0 ≤ d.density
  density_le : d.density ≤ 1
  collision_nonneg : 0 ≤ d.collision
  collision_le : d.collision ≤ 1

/-- The state invariant maintained by `next_tick` and `set_wh`. -/
structure CityInv (c : City) : Prop where
  dim : c.canvas.Dim c.size.1 c.size.2
  h8 : 8 ≤ c.size.2
  tick_lb : 1 ≤ c.tick
  tick_ub : c.tick ≤ TICK_WRAP
  good : ∀ d ∈ c.layers_desc, GoodDesc d
  bld : ∀ l ∈ c.layers, ∀ b ∈ l.ring, b.spawn_tick ≤ TICK_WRAP ∧ 2 ≤ b.size_y

/-- States reachable from a validly configured fresh `City` through
ticks and resizes (resize heights at least 8, as guaranteed by the CLI
minimum height 10). -/
inductive Reachable (R : RngModel) : City → Prop
  | init (w h step seed bg : Nat) (descs : List LayerDesc) :
      1 ≤ step → step ≤ w / 2 → 8 ≤ h → (∀ d ∈ descs, GoodDesc d) →
      Reachable R (City.new w h step seed bg descs)
  | tick (c c' : City) : Reachable R c → next_tick R c = some c' →
      Reachable R c'
  | resize (c : City) (w h : Nat) : Reachable R c → 8 ≤ h →
      Reachable R (c.set_wh w h)

/-- Modelled from the spec: variant of the per-layer step whose draw
pass drains exactly the PRE-spawn length of the buffer ("draining
exactly the pre-tick length so newly spawned entries are never
processed in the same pass"); the real code takes the length after the
spawn push (line 137). -/
def cityLayerStepPre (R : RngModel) (sx sy step tick : Nat)
    (acc : Nat × Vec2D Nat × List Layer) (dl : LayerDesc × Layer) :
    Option (Nat × Vec2D Nat × List Layer) :=
  let (rngst, canvas, out) := acc
  let (d, l) := dl
  match spawnStep R sx sy tick d l rngst with
  | none => none
  | some (ring1, rng1) =>
    match drawPass R d sx sy step tick l.ring.length (0, canvas, ring1) with
    | none => none
    | some (rc, canvas1, ring2) =>
      some (rng1, canvas1, out ++ [⟨ring2, rc⟩])

/-- Modelled from the spec: the per-layer loop of the pre-spawn-length
variant. -/
def layersLoopPre (R : RngModel) (sx sy step tick : Nat) :
    List (LayerDesc × Layer) → Nat × Vec2D Nat × List Layer →
    Option (Nat × Vec2D Nat × List Layer)
  | [], acc => some acc
  | dl :: rest, acc =>
    (cityLayerStepPre R sx sy step tick acc dl).bind
      (layersLoopPre R sx sy step tick rest)

/-- Modelled from the spec: `next_tick` with the pre-spawn-length draw
pass. -/
def next_tickPre (R : RngModel) (c : City) : Option City :=
  let (sx, sy) := c.size
  let canvas0 := c.canvas.fill_with c.background
  match layersLoopPre R sx sy c.step c.tick (c.layers_desc.zip c.layers)
      (c.rng, canvas0, []) with
  | none => none
  | some (rng1, canvas1, layers1) =>
    let tick1 := c.tick + 1
    let tick2 := if tick1 > TICK_WRAP then 1 else tick1
    some { c with rng := rng1, canvas := canvas1, layers := layers1, tick := tick2 }

/-- A one-layer always-spawning configuration (density 1, speed 1, a
single wall color, no windows). -/
def dC1 : LayerDesc :=
  { density := 1, collision := 1, speed := 1, wall_color := [47],
    draw_windows := false, window_colors := [] }

/-- A fresh 50×10 city over `dC1`. -/
def cityC1 : City := City.new 50 10 1 0 107 [dC1]

/-- A windowed layer with a single window color distinct from the wall
color. -/
def dC2 : LayerDesc :=
  { density := 1, collision := 1, speed := 1, wall_color := [5],
    draw_windows := true, window_colors := [9] }

/-- A 20×12 building with wall color 5. -/
def bC2 : Building :=
  { size_x := 20, size_y := 12, spawn_tick := 1, color := 5, seed := 0 }

/-- A 30×12 canvas filled with color 0. -/
def cvC2 : Vec2D Nat := Vec2D.new 30 12 0

/-- The rightmost extent stored in the first layer of a city. -/
def layer0rcx (c : City) : Nat :=
  (c.layers.getD 0 ⟨[], 0⟩).rightmost_building_rcx

/-! ## Helper lemmas and claim theorems -/

theorem list_get?_getD (l : List Nat) (i : Nat) (h : i < l.length) :
    l.get? i = some (l.getD i 0) := by
  induction l generalizing i with
  | nil => simp at h
  | cons a t ih =>
    cases i with
    | zero => simp [List.getD]
    | succ n =>
      simp only [List.length_cons, Nat.succ_lt_succ_iff] at h
      simpa [List.getD] using ih n h

theorem raw_idx_inj {sx y j y' j' : Nat} (hj : j < sx) (hj' : j' < sx)
    (h : y * sx + j = y' * sx + j') : y = y' ∧ j = j' := by
  rcases Nat.lt_trichotomy y y' with hy | hy | hy
  · exfalso
    have h1 : y * sx + j < (y + 1) * sx := by
      simpa [Nat.succ_mul] using Nat.add_lt_add_left hj (y * sx)
    have h2 : (y + 1) * sx ≤ y' * sx := Nat.mul_le_mul_right sx hy
    omega
  · constructor
    · exact hy
    · subst hy; omega
  · exfalso
    have h1 : y' * sx + j' < (y' + 1) * sx := by
      simpa [Nat.succ_mul] using Nat.add_lt_add_left hj' (y' * sx)
    have h2 : (y' + 1) * sx ≤ y * sx := Nat.mul_le_mul_right sx hy
    omega

theorem setCell?_char {v : Vec2D Nat} {sx sy : Nat} (hd : v.Dim sx sy)
    {y j : Nat} (c : Nat) (hy : y < sy) (hj : j < sx) :
    ∃ v', v.setCell? y j c = some v' ∧ v'.Dim sx sy ∧
      v'.getCell? j y = some c ∧
      ∀ j' y', j' < sx → (y' ≠ y ∨ j' ≠ j) →
        v'.getCell? j' y' = v.getCell? j' y' := by
  obtain ⟨hx, hyy, hlen⟩ := hd
  have hcond : raw_idx v.size_x 0 y + v.size_x ≤ v.data.length := by
    simp only [raw_idx, hx, hlen, Nat.add_zero]
    calc y * sx + sx = (y + 1) * sx := by ring
    _ ≤ sy * sx := Nat.mul_le_mul_right sx hy
    _ = sx * sy := Nat.mul_comm sy sx
  refine ⟨{ v with data := v.data.set (raw_idx v.size_x j y) c }, ?_,
    ⟨hx, hyy, by simp [hlen]⟩, ?_, ?_⟩
  · rw [Vec2D.setCell?, if_pos ⟨hcond, by simpa [hx] using hj⟩]
  · have hidx : raw_idx v.size_x j y < v.data.length := by
      simp only [raw_idx, hx, hlen]
      have : y * sx + j < (y + 1) * sx := by
        simpa [Nat.succ_mul] using Nat.add_lt_add_left hj (y * sx)
      calc y * sx + j < (y + 1) * sx := this
      _ ≤ sy * sx := Nat.mul_le_mul_right sx hy
      _ = sx * sy := Nat.mul_comm sy sx
    simp only [Vec2D.getCell?]
    exact List.get?_set_eq_of_lt c hidx
  · intro j' y' hj' hne
    simp only [Vec2D.getCell?]
    apply List.get?_set_ne
    simp only [raw_idx, hx]
    intro hcontra
    rcases raw_idx_inj hj hj' hcontra with ⟨h1, h2⟩
    rcases hne with h | h
    · exact h h1.symm
    · exact h h2.symm

theorem wallRowLoop_char (wall cy_row cx ox : Nat) :
    ∀ (n x0 : Nat) (cv : Vec2D Nat) {sx sy : Nat}, cv.Dim sx sy →
    cy_row < sy → ox ≤ x0 → cx + (x0 - ox) + n ≤ sx →
    ∃ cv', wallRowLoop wall cy_row cx ox n x0 cv = some cv' ∧ cv'.Dim sx sy ∧
      (∀ k, k < n → cv'.getCell? (cx + (x0 + k - ox)) cy_row = some wall) ∧
      (∀ j' y', j' < sx →
        (y' ≠ cy_row ∨ j' < cx + (x0 - ox) ∨ cx + (x0 - ox) + n ≤ j') →
        cv'.getCell? j' y' = cv.getCell? j' y') := by
  intro n
  induction n with
  | zero =>
    intro x0 cv sx sy hd _ _ _
    exact ⟨cv, rfl, hd, by intro k hk; omega, by intro j' y' _ _; rfl⟩
  | succ n ih =>
    intro x0 cv sx sy hd hrow hox hcols
    have hj : cx + (x0 - ox) < sx := by omega
    obtain ⟨cv1, hset, hd1, hval1, huntouched1⟩ :=
      setCell?_char hd wall hrow hj
    obtain ⟨cv', hloop, hd', hvals, huntouched⟩ :=
      ih (x0 + 1) cv1 hd1 hrow (by omega) (by omega)
    refine ⟨cv', ?_, hd', ?_, ?_⟩
    · simp only [wallRowLoop, hset, Option.bind_some]
      exact hloop
    · intro k hk
      cases k with
      | zero =>
        have heq : cx + (x0 + 0 - ox) = cx + (x0 - ox) := by omega
        rw [heq, huntouched (cx + (x0 - ox)) cy_row hj (by omega)]
        exact hval1
      | succ m =>
        have heq : cx + (x0 + 1 + m - ox) = cx + (x0 + (m + 1) - ox) := by omega
        rw [← heq]
        exact hvals m (by omega)
    · intro j' y' hj' hcase
      have hcase1 : y' ≠ cy_row ∨ j' < cx + (x0 + 1 - ox) ∨
          cx + (x0 + 1 - ox) + n ≤ j' := by
        rcases hcase with h | h | h
        · exact Or.inl h
        · exact Or.inr (Or.inl (by omega))
        · exact Or.inr (Or.inr (by omega))
      have hcase2 : y' ≠ cy_row ∨ j' ≠ cx + (x0 - ox) := by
        rcases hcase with h | h | h
        · exact Or.inl h
        · exact Or.inr (by omega)
        · exact Or.inr (by omega)
      rw [huntouched j' y' hj' hcase1, huntouched1 j' y' hj' hcase2]

theorem roofRowLoop_char (wall right_gap_x cy_row cx ox : Nat) :
    ∀ (n x0 : Nat) (cv : Vec2D Nat) {sx sy : Nat}, cv.Dim sx sy →
    cy_row < sy → ox ≤ x0 → cx + (x0 - ox) + n ≤ sx →
    ∃ cv', roofRowLoop wall right_gap_x cy_row cx ox n x0 cv = some cv' ∧
      cv'.Dim sx sy ∧
      (∀ j' y', j' < sx → y' ≠ cy_row →
        cv'.getCell? j' y' = cv.getCell? j' y') := by
  intro n
  induction n with
  | zero =>
    intro x0 cv sx sy hd _ _ _
    exact ⟨cv, rfl, hd, by intro j' y' _ _; rfl⟩
  | succ n ih =>
    intro x0 cv sx sy hd hrow hox hcols
    have hj : cx + (x0 - ox) < sx := by omega
    by_cases hroof : ROOF_GAP_X ≤ x0 ∧ x0 < right_gap_x
    · obtain ⟨cv1, hset, hd1, _, huntouched1⟩ := setCell?_char hd wall hrow hj
      obtain ⟨cv', hloop, hd', huntouched⟩ :=
        ih (x0 + 1) cv1 hd1 hrow (by omega) (by omega)
      refine ⟨cv', ?_, hd', ?_⟩
      · simp only [roofRowLoop, if_pos hroof, hset, Option.bind_some]
        exact hloop
      · intro j' y' hj' hy'
        rw [huntouched j' y' hj' hy', huntouched1 j' y' hj' (Or.inl hy')]
    · obtain ⟨cv', hloop, hd', huntouched⟩ :=
        ih (x0 + 1) cv hd hrow (by omega) (by omega)
      refine ⟨cv', ?_, hd', huntouched⟩
      simp only [roofRowLoop, if_neg hroof, Option.bind_some]
      exact hloop

theorem wndCellColor_shift (R : RngModel) (wnd_colors : List Nat)
    (wall seed_fill y wnd_lim_x x0 wcl wcl1 x : Nat) (hx : x0 + 1 ≤ x)
    (hcase : WINDOW_PAD_L ≤ x0 ∧ x0 < wnd_lim_x ∧
      (x0 - WINDOW_PAD_L) % (WINDOW_X + WINDOW_SPC_X) = 0 →
      wcl1 = wndHashColor R wnd_colors seed_fill x0 y) :
    wndCellColor R wnd_colors wall seed_fill y wnd_lim_x (x0 + 1) wcl1 x =
      wndCellColor R wnd_colors wall seed_fill y wnd_lim_x x0 wcl x := by
  unfold wndCellColor
  simp only [WINDOW_PAD_L, WINDOW_X, WINDOW_SPC_X] at *
  by_cases hreg : 3 ≤ x ∧ x < wnd_lim_x
  · rw [if_pos hreg, if_pos hreg]
    by_cases hp0 : (x - 3) % (2 + 2) = 0
    · rw [if_pos hp0, if_pos hp0]
    · rw [if_neg hp0, if_neg hp0]
      by_cases hp1 : (x - 3) % (2 + 2) = 1
      · rw [if_pos hp1, if_pos hp1, if_pos (show x0 < x by omega)]
        by_cases hx1 : x0 + 1 < x
        · rw [if_pos hx1]
        · rw [if_neg hx1]
          have h0 : 3 ≤ x0 ∧ x0 < wnd_lim_x ∧ (x0 - 3) % (2 + 2) = 0 := by omega
          rw [hcase h0]
          have hx0 : x - 1 = x0 := by omega
          rw [hx0]
      · rw [if_neg hp1, if_neg hp1]
  · rw [if_neg hreg, if_neg hreg]

theorem wndRowLoop_char (R : RngModel) (hR : R.SizeLtSound)
    (wnd_colors : List Nat) (hlen : 0 < wnd_colors.length)
    (wall seed_fill y wnd_lim_x cy_row cx ox : Nat) :
    ∀ (n x0 rs wcl : Nat) (cv : Vec2D Nat) {sx sy : Nat}, cv.Dim sx sy →
    cy_row < sy → ox ≤ x0 → cx + (x0 - ox) + n ≤ sx →
    ∃ rs' wcl' cv',
      wndRowLoop R wnd_colors wall seed_fill y wnd_lim_x cy_row cx ox n x0
        (0, rs, wcl, cv) = some (0, rs', wcl', cv') ∧ cv'.Dim sx sy ∧
      (∀ k, k < n → cv'.getCell? (cx + (x0 + k - ox)) cy_row = some
        (wndCellColor R wnd_colors wall seed_fill y wnd_lim_x x0 wcl (x0 + k))) ∧
      (∀ j' y', j' < sx →
        (y' ≠ cy_row ∨ j' < cx + (x0 - ox) ∨ cx + (x0 - ox) + n ≤ j') →
        cv'.getCell? j' y' = cv.getCell? j' y') := by
  intro n
  induction n with
  | zero =>
    intro x0 rs wcl cv sx sy hd _ _ _
    exact ⟨rs, wcl, cv, rfl, hd, by intro k hk; omega, by intro j' y' _ _; rfl⟩
  | succ n ih =>
    intro x0 rs wcl cv sx sy hd hrow hox hcols
    have hj : cx + (x0 - ox) < sx := by omega
    have hstep : ∃ c0 rs1 wcl1,
        drawWndCell R wnd_colors wall seed_fill y wnd_lim_x cy_row cx ox
          (0, rs, wcl, cv) x0 =
          (cv.setCell? cy_row (cx + (x0 - ox)) c0).map
            (fun c2 => (0, rs1, wcl1, c2)) ∧
        c0 = wndCellColor R wnd_colors wall seed_fill y wnd_lim_x x0 wcl x0 ∧
        (WINDOW_PAD_L ≤ x0 ∧ x0 < wnd_lim_x ∧
          (x0 - WINDOW_PAD_L) % (WINDOW_X + WINDOW_SPC_X) = 0 →
          wcl1 = wndHashColor R wnd_colors seed_fill x0 y) := by
      by_cases hreg : WINDOW_PAD_L ≤ x0 ∧ x0 < wnd_lim_x
      · by_cases hp0 : (x0 - WINDOW_PAD_L) % (WINDOW_X + WINDOW_SPC_X) = 0
        · rcases hu : R.usizeLt wnd_colors.length
              (Nat.lor (seed_fill <<< 32) (reset_final (inc_seed_u32
                (inc_seed_u32 (inc_seed_u32 0 0xdeadbeef) (x0 % U32)) (y % U32))))
            with ⟨i, rng2⟩
          have hi : i < wnd_colors.length := by
            have h' := hR wnd_colors.length
              (Nat.lor (seed_fill <<< 32) (reset_final (inc_seed_u32
                (inc_seed_u32 (inc_seed_u32 0 0xdeadbeef) (x0 % U32)) (y % U32)))) hlen
            rw [hu] at h'
            exact h'
          refine ⟨wnd_colors.getD i 0, rng2, wnd_colors.getD i 0, ?_, ?_, ?_⟩
          · simp only [drawWndCell, if_pos hreg, if_pos hp0, rngUsizeLt,
              if_neg (Nat.pos_iff_ne_zero.mp hlen), hu, list_get?_getD _ _ hi]
          · simp only [wndCellColor, if_pos hreg, if_pos hp0, wndHashColor, hu]
          · intro _
            simp only [wndHashColor, hu]
        · by_cases hp1 : (x0 - WINDOW_PAD_L) % (WINDOW_X + WINDOW_SPC_X) < WINDOW_X
          · refine ⟨wcl, rs, wcl, ?_, ?_, ?_⟩
            · simp only [drawWndCell, if_pos hreg, if_neg hp0, if_pos hp1]
            · have hp1' : (x0 - WINDOW_PAD_L) % (WINDOW_X + WINDOW_SPC_X) = 1 := by
                simp only [WINDOW_X, WINDOW_SPC_X] at *
                omega
              simp only [wndCellColor, if_pos hreg, if_neg hp0, if_pos hp1',
                if_neg (lt_irrefl x0)]
            · intro h
              exact absurd h.2.2 hp0
          · refine ⟨wall, rs, wcl, ?_, ?_, ?_⟩
            · simp only [drawWndCell, if_pos hreg, if_neg hp0, if_neg hp1]
            · have hp1' : ¬((x0 - WINDOW_PAD_L) % (WINDOW_X + WINDOW_SPC_X) = 1) := by
                simp only [WINDOW_X, WINDOW_SPC_X] at *
                omega
              simp only [wndCellColor, if_pos hreg, if_neg hp0, if_neg hp1']
            · intro h
              exact absurd h.2.2 hp0
      · refine ⟨wall, rs, wcl, ?_, ?_, ?_⟩
        · simp only [drawWndCell, if_neg hreg]
        · simp only [wndCellColor, if_neg hreg]
        · intro h
          exact absurd ⟨h.1, h.2.1⟩ hreg
    obtain ⟨c0, rs1, wcl1, hstepeq, hc0, hwcl1⟩ := hstep
    obtain ⟨cv1, hset, hd1, hval1, huntouched1⟩ := setCell?_char hd c0 hrow hj
    obtain ⟨rs', wcl', cv', hloop, hd', hvals, huntouched⟩ :=
      ih (x0 + 1) rs1 wcl1 cv1 hd1 hrow (by omega) (by omega)
    refine ⟨rs', wcl', cv', ?_, hd', ?_, ?_⟩
    · rw [wndRowLoop, hstepeq, hset]
      simpa using hloop
    · intro k hk
      cases k with
      | zero =>
        have heq : cx + (x0 + 0 - ox) = cx + (x0 - ox) := by omega
        rw [heq, huntouched (cx + (x0 - ox)) cy_row hj (by omega)]
        rw [hval1, hc0]
        simp
      | succ m =>
        have heq : cx + (x0 + 1 + m - ox) = cx + (x0 + (m + 1) - ox) := by omega
        have hv := hvals m (by omega)
        rw [heq] at hv
        rw [hv]
        have heq2 : x0 + 1 + m = x0 + (m + 1) := by omega
        rw [heq2]
        rw [wndCellColor_shift R wnd_colors wall seed_fill y wnd_lim_x x0 wcl
          wcl1 (x0 + (m + 1)) (by omega) hwcl1]
    · intro j' y' hj' hcase
      have hcase1 : y' ≠ cy_row ∨ j' < cx + (x0 + 1 - ox) ∨
          cx + (x0 + 1 - ox) + n ≤ j' := by
        rcases hcase with h | h | h
        · exact Or.inl h
        · exact Or.inr (Or.inl (by omega))
        · exact Or.inr (Or.inr (by omega))
      have hcase2 : y' ≠ cy_row ∨ j' ≠ cx + (x0 - ox) := by
        rcases hcase with h | h | h
        · exact Or.inl h
        · exact Or.inr (by omega)
        · exact Or.inr (by omega)
      rw [huntouched j' y' hj' hcase1, huntouched1 j' y' hj' hcase2]

theorem drawRowY_total (R : RngModel) (hR : R.SizeLtSound)
    (wnd_colors : List Nat) (wnd_draw : Prop) [Decidable wnd_draw]
    (hwnd : wnd_draw → 0 < wnd_colors.length)
    (wall seed_fill right_gap_x wnd_lim_x wnd_lim_y cx cy ox oy iw : Nat)
    (y rs : Nat) (cv : Vec2D Nat) {sx sy : Nat} (hd : cv.Dim sx sy)
    (_hoy : oy ≤ y) (hrow : cy + (y - oy) < sy) (hcols : cx + iw ≤ sx) :
    ∃ rs' cv',
      drawRowY R wnd_colors wnd_draw wall seed_fill right_gap_x wnd_lim_x
        wnd_lim_y cx cy ox oy iw (0, rs, cv) y = some (0, rs', cv') ∧
      cv'.Dim sx sy ∧
      (∀ j' y', j' < sx → y' ≠ cy + (y - oy) →
        cv'.getCell? j' y' = cv.getCell? j' y') := by
  by_cases hroof : y < ROOF_GAP_Y
  · obtain ⟨cv', hloop, hd', huntouched⟩ :=
      roofRowLoop_char wall right_gap_x (cy + (y - oy)) cx ox iw ox cv hd hrow
        (le_refl ox) (by omega)
    refine ⟨rs, cv', ?_, hd', ?_⟩
    · simp only [drawRowY, if_pos hroof, hloop]
      rfl
    · intro j' y' hj' hy'
      exact huntouched j' y' hj' hy'
  · by_cases hcond : wnd_draw ∧ ROOF_GAP_Y + WINDOW_PAD_T ≤ y ∧ y < wnd_lim_y ∧
        (y - (ROOF_GAP_Y + WINDOW_PAD_T)) % (WINDOW_Y + WINDOW_SPC_Y) < WINDOW_Y
    · obtain ⟨rs', wcl', cv', hloop, hd', _, huntouched⟩ :=
        wndRowLoop_char R hR wnd_colors (hwnd hcond.1) wall seed_fill y
          wnd_lim_x (cy + (y - oy)) cx ox iw ox rs wall cv hd hrow
          (le_refl ox) (by omega)
      refine ⟨rs', cv', ?_, hd', ?_⟩
      · simp only [drawRowY, if_neg hroof, if_pos hcond, hloop]
        rfl
      · intro j' y' hj' hy'
        exact huntouched j' y' hj' (Or.inl hy')
    · obtain ⟨cv', hloop, hd', _, huntouched⟩ :=
        wallRowLoop_char wall (cy + (y - oy)) cx ox iw ox cv hd hrow
          (le_refl ox) (by omega)
      refine ⟨rs, cv', ?_, hd', ?_⟩
      · simp only [drawRowY, if_neg hroof, if_neg hcond, hloop]
        rfl
      · intro j' y' hj' hy'
        exact huntouched j' y' hj' (Or.inl hy')

theorem rowsLoop_pres (R : RngModel) (hR : R.SizeLtSound)
    (wnd_colors : List Nat) (wnd_draw : Prop) [Decidable wnd_draw]
    (hwnd : wnd_draw → 0 < wnd_colors.length)
    (wall seed_fill right_gap_x wnd_lim_x wnd_lim_y cx cy ox oy iw : Nat) :
    ∀ (n y0 rs : Nat) (cv : Vec2D Nat) {sx sy : Nat}, cv.Dim sx sy →
    oy ≤ y0 → cy + (y0 - oy) + n ≤ sy → cx + iw ≤ sx →
    ∃ rs' cv',
      rowsLoop R wnd_colors wnd_draw wall seed_fill right_gap_x wnd_lim_x
        wnd_lim_y cx cy ox oy iw n y0 (0, rs, cv) = some (0, rs', cv') ∧
      cv'.Dim sx sy ∧
      (∀ j' y', j' < sx → y' < cy + (y0 - oy) →
        cv'.getCell? j' y' = cv.getCell? j' y') := by
  intro n
  induction n with
  | zero =>
    intro y0 rs cv sx sy hd _ _ _
    exact ⟨rs, cv, rfl, hd, by intro j' y' _ _; rfl⟩
  | succ n ih =>
    intro y0 rs cv sx sy hd hoy hrows hcols
    obtain ⟨rs1, cv1, hrow1, hd1, hpres1⟩ :=
      drawRowY_total R hR wnd_colors wnd_draw hwnd wall seed_fill right_gap_x
        wnd_lim_x wnd_lim_y cx cy ox oy iw y0 rs cv hd hoy (by omega) hcols
    obtain ⟨rs', cv', hloop, hd', hpres⟩ :=
      ih (y0 + 1) rs1 cv1 hd1 (by omega) (by omega) hcols
    refine ⟨rs', cv', ?_, hd', ?_⟩
    · rw [rowsLoop, hrow1]
      simpa using hloop
    · intro j' y' hj' hy'
      rw [hpres j' y' hj' (by omega), hpres1 j' y' hj' (by omega)]

theorem rowsLoop_wnd_char (R : RngModel) (hR : R.SizeLtSound)
    (wnd_colors : List Nat) (wnd_draw : Prop) [Decidable wnd_draw]
    (hwnd : wnd_draw → 0 < wnd_colors.length)
    (wall seed_fill right_gap_x wnd_lim_x wnd_lim_y cx cy ox oy iw : Nat)
    (yt : Nat)
    (hyt : wnd_draw ∧ ROOF_GAP_Y + WINDOW_PAD_T ≤ yt ∧ yt < wnd_lim_y ∧
      (yt - (ROOF_GAP_Y + WINDOW_PAD_T)) % (WINDOW_Y + WINDOW_SPC_Y) < WINDOW_Y) :
    ∀ (n y0 rs : Nat) (cv : Vec2D Nat) {sx sy : Nat}, cv.Dim sx sy →
    oy ≤ y0 → cy + (y0 - oy) + n ≤ sy → cx + iw ≤ sx →
    y0 ≤ yt → yt < y0 + n →
    ∃ rs' cv',
      rowsLoop R wnd_colors wnd_draw wall seed_fill right_gap_x wnd_lim_x
        wnd_lim_y cx cy ox oy iw n y0 (0, rs, cv) = some (0, rs', cv') ∧
      cv'.Dim sx sy ∧
      (∀ k, k < iw → cv'.getCell? (cx + k) (cy + (yt - oy)) = some
        (wndCellColor R wnd_colors wall seed_fill yt wnd_lim_x ox wall (ox + k))) := by
  intro n
  induction n with
  | zero =>
    intro y0 rs cv sx sy _ _ _ _ _ h
    omega
  | succ n ih =>
    intro y0 rs cv sx sy hd hoy hrows hcols hy1 hy2
    by_cases hy0 : y0 = yt
    · subst hy0
      have hroof : ¬(y0 < ROOF_GAP_Y) := by
        have h1 := hyt.2.1
        simp only [ROOF_GAP_Y, WINDOW_PAD_T] at h1 ⊢
        omega
      obtain ⟨rs1, wcl', cv1, hloop1, hd1, hvals1, _⟩ :=
        wndRowLoop_char R hR wnd_colors (hwnd hyt.1) wall seed_fill y0
          wnd_lim_x (cy + (y0 - oy)) cx ox iw ox rs wall cv hd (by omega)
          (le_refl ox) (by omega)
      obtain ⟨rs', cv', hloop, hd', hpres⟩ :=
        rowsLoop_pres R hR wnd_colors wnd_draw hwnd wall seed_fill right_gap_x
          wnd_lim_x wnd_lim_y cx cy ox oy iw n (y0 + 1) rs1 cv1 hd1 (by omega)
          (by omega) hcols
      refine ⟨rs', cv', ?_, hd', ?_⟩
      · rw [rowsLoop]
        simp only [drawRowY, if_neg hroof, if_pos hyt, hloop1]
        simpa using hloop
      · intro k hk
        rw [hpres (cx + k) (cy + (y0 - oy)) (by omega) (by omega)]
        have heq : cx + (ox + k - ox) = cx + k := by omega
        have hv := hvals1 k hk
        rw [heq] at hv
        exact hv
    · obtain ⟨rs1, cv1, hrow1, hd1, _⟩ :=
        drawRowY_total R hR wnd_colors wnd_draw hwnd wall seed_fill right_gap_x
          wnd_lim_x wnd_lim_y cx cy ox oy iw y0 rs cv hd hoy (by omega) hcols
      obtain ⟨rs', cv', hloop, hd', hvals⟩ :=
        ih (y0 + 1) rs1 cv1 hd1 (by omega) (by omega) hcols (by omega) (by omega)
      refine ⟨rs', cv', ?_, hd', hvals⟩
      rw [rowsLoop, hrow1]
      simpa using hloop

theorem draw_building_total (R : RngModel) (hR : R.SizeLtSound)
    (cv : Vec2D Nat) (b : Building) (layer : LayerDesc)
    (cx cy ox oy lw lh : Nat) {sx sy : Nat} (hd : cv.Dim sx sy)
    (hw : cx + min b.size_x lw ≤ sx) (hh : cy + min b.size_y lh ≤ sy)
    (hsh : 2 ≤ b.size_y) :
    ∃ cv', draw_building R cv b layer (cx, cy) (ox, oy) (lw, lh) = some cv' ∧
      cv'.Dim sx sy := by
  by_cases hskip : lw = 0 ∨ lh = 0 ∨ b.size_x < ROOF_GAP_X * 2 ∨
      b.size_x < WINDOW_PAD_L + WINDOW_PAD_R + WINDOW_X
  · refine ⟨cv, ?_, hd⟩
    simp only [draw_building, if_pos hskip]
  · have hsw4 : ¬(b.size_x < ROOF_GAP_X * 2) := by tauto
    have hsw9 : ¬(b.size_x < WINDOW_PAD_L + WINDOW_PAD_R + WINDOW_X) := by tauto
    have h1 : csub b.size_x ROOF_GAP_X = some (b.size_x - ROOF_GAP_X) := by
      rw [csub, if_pos (by simp only [ROOF_GAP_X] at *; omega)]
    have h2 : csub b.size_x WINDOW_PAD_R = some (b.size_x - WINDOW_PAD_R) := by
      rw [csub, if_pos (by
        simp only [WINDOW_PAD_R, WINDOW_PAD_L, WINDOW_X] at *; omega)]
    have h3 : csub b.size_y WINDOW_PAD_B = some (b.size_y - WINDOW_PAD_B) := by
      rw [csub, if_pos (by simp only [WINDOW_PAD_B]; omega)]
    rcases hu32 : R.u32 b.seed with ⟨sf, rng1⟩
    obtain ⟨rs', cv', hloop, hd', _⟩ :=
      rowsLoop_pres R hR layer.window_colors
        (layer.draw_windows = true ∧ 0 < layer.window_colors.length)
        (fun hc => hc.2) b.color sf (b.size_x - ROOF_GAP_X)
        (b.size_x - WINDOW_PAD_R) (b.size_y - WINDOW_PAD_B) cx cy ox oy
        (min b.size_x lw) (min b.size_y lh) oy rng1 cv hd (le_refl oy)
        (by omega) hw
    refine ⟨cv', ?_, hd'⟩
    simp only [draw_building, if_neg hskip, hu32, h1, h2, h3, hloop]
    rfl

theorem wndCellColor_eq_pure (R : RngModel) (layer : LayerDesc) (b : Building)
    (x y ox : Nat)
    (hside : (x - WINDOW_PAD_L) % (WINDOW_X + WINDOW_SPC_X) = 1 →
      WINDOW_PAD_L ≤ x → ox < x) :
    wndCellColor R layer.window_colors b.color ((R.u32 b.seed).1) y
      (b.size_x - WINDOW_PAD_R) ox b.color x = pureWndColor R layer b x y := by
  unfold wndCellColor pureWndColor
  by_cases hreg : WINDOW_PAD_L ≤ x ∧ x < b.size_x - WINDOW_PAD_R
  · rw [if_pos hreg, if_pos hreg]
    by_cases hp0 : (x - WINDOW_PAD_L) % (WINDOW_X + WINDOW_SPC_X) = 0
    · rw [if_pos hp0, if_pos hp0]
    · rw [if_neg hp0, if_neg hp0]
      by_cases hp1 : (x - WINDOW_PAD_L) % (WINDOW_X + WINDOW_SPC_X) = 1
      · rw [if_pos hp1, if_pos hp1, if_pos (hside hp1 hreg.1)]
      · rw [if_neg hp1, if_neg hp1]
  · rw [if_neg hreg, if_neg hreg]

theorem processBuilding_char (R : RngModel) (hR : R.SizeLtSound)
    (d : LayerDesc) (sx sy step tick rc : Nat) (cv : Vec2D Nat) (b : Building)
    (hd : cv.Dim sx sy) (hspeed : 0 < d.speed)
    (hbt : b.spawn_tick ≤ tick + TICK_WRAP) (hb2 : 2 ≤ b.size_y) :
    ∃ cv', processBuilding R d sx sy step tick rc cv b =
      some (if keepB sx step d.speed tick b then
              max rc (xPosOf sx step d.speed tick b + b.size_x + COLLISION_GAP)
            else rc,
            cv', keepB sx step d.speed tick b) ∧
      cv'.Dim sx sy ∧ (keepB sx step d.speed tick b = false → cv' = cv) := by
  have hwt : b.spawn_tick ≤ wrapTick tick b := by
    rw [wrapTick]
    by_cases hgt : b.spawn_tick > tick
    · rw [if_pos hgt]; omega
    · rw [if_neg hgt]; omega
  have hcsub : csub (wrapTick tick b) b.spawn_tick = some (elapsedOf tick b) := by
    rw [csub, if_pos hwt, elapsedOf]
  rcases hop : offXPair (xRaw sx step d.speed (elapsedOf tick b)) with ⟨offx, xpos⟩
  have hoffx : offXOf sx step d.speed tick b = offx := by rw [offXOf, hop]
  have hxpos : xPosOf sx step d.speed tick b = xpos := by rw [xPosOf, hop]
  have hxle : xpos ≤ sx := by
    have h2 : offXPair (xRaw sx step d.speed (elapsedOf tick b)) = (offx, xpos) := hop
    rw [offXPair, xRaw] at h2
    by_cases hneg : ((sx : Int) - ((elapsedOf tick b * step / d.speed : Nat) : Int)) < 0
    · rw [if_pos hneg] at h2
      injection h2 with h21 h22
      omega
    · rw [if_neg hneg] at h2
      injection h2 with h21 h22
      have hq : 0 ≤ ((elapsedOf tick b * step / d.speed : Nat) : Int) :=
        Int.natCast_nonneg _
      have h3 : ((sx : Int) - ((elapsedOf tick b * step / d.speed : Nat) : Int)).toNat ≤ sx := by
        omega
      omega
  by_cases hkeep : offx > b.size_x
  · have hkb : keepB sx step d.speed tick b = false := by
      rw [keepB, hoffx]
      simp only [decide_eq_false_iff_not]
      omega
    refine ⟨cv, ?_, hd, fun _ => rfl⟩
    rw [processBuilding, hcsub]
    simp only [Nat.pos_iff_ne_zero.mp hspeed, if_false, hop, hkb]
    rw [if_pos hkeep]
    rfl
  · have hkb : keepB sx step d.speed tick b = true := by
      rw [keepB, hoffx]
      simp only [decide_eq_true_eq]
      omega
    have hcsub2 : csub sx xpos = some (sx - xpos) := by
      rw [csub, if_pos hxle]
    rcases hoy : offYPair sy b with ⟨offy, ypos⟩
    have hyb : ypos + min b.size_y (min (b.size_y - offy) sy) ≤ sy := by
      rw [offYPair] at hoy
      by_cases htall : b.size_y > sy
      · rw [if_pos htall] at hoy
        injection hoy with h1 h2
        omega
      · rw [if_neg htall] at hoy
        injection hoy with h1 h2
        omega
    have hxb : xpos + min b.size_x (min (b.size_x - offx) (sx - xpos)) ≤ sx := by
      omega
    obtain ⟨cv', hdraw, hd'⟩ := draw_building_total R hR cv b d xpos ypos offx offy
      (min (b.size_x - offx) (sx - xpos)) (min (b.size_y - offy) sy) hd hxb hyb hb2
    refine ⟨cv', ?_, hd', by intro h; rw [hkb] at h; cases h⟩
    rw [processBuilding, hcsub]
    simp only [Nat.pos_iff_ne_zero.mp hspeed, if_false, hop, hoy]
    rw [if_neg hkeep]
    rw [hcsub2]
    simp only [hdraw, hkb, hxpos, if_true]

theorem rcFold_init_le (sx step speed tick : Nat) :
    ∀ (bs : List Building) (rc : Nat), rc ≤ rcFold sx step speed tick rc bs := by
  intro bs
  induction bs with
  | nil => intro rc; exact le_refl rc
  | cons a bs ih =>
    intro rc
    rw [rcFold, List.foldl_cons]
    refine le_trans ?_ (ih _)
    by_cases hk : keepB sx step speed tick a
    · simp only [hk, if_true]
      exact le_max_left _ _
    · simp only [hk, if_false]
      exact le_refl rc

theorem rcFold_ge (sx step speed tick : Nat) :
    ∀ (bs : List Building) (rc : Nat) (b : Building), b ∈ bs →
    keepB sx step speed tick b = true →
    xPosOf sx step speed tick b + b.size_x + COLLISION_GAP ≤
      rcFold sx step speed tick rc bs := by
  intro bs
  induction bs with
  | nil => intro rc b hb; cases hb
  | cons a bs ih =>
    intro rc b hb hk
    rcases List.mem_cons.mp hb with hba | hbbs
    · subst hba
      rw [rcFold, List.foldl_cons]
      simp only [hk, if_true]
      exact le_trans (le_max_right _ _) (rcFold_init_le sx step speed tick bs _)
    · rw [rcFold, List.foldl_cons]
      exact ih _ b hbbs hk

theorem drawPass_zero (R : RngModel) (d : LayerDesc) (sx sy step tick : Nat)
    (st : Nat × Vec2D Nat × List Building) :
    drawPass R d sx sy step tick 0 st = some st := rfl

theorem drawPass_succ_cons (R : RngModel) (d : LayerDesc)
    (sx sy step tick n rc : Nat) (cv : Vec2D Nat) (b : Building)
    (ring1 : List Building) :
    drawPass R d sx sy step tick (n + 1) (rc, cv, b :: ring1) =
      match processBuilding R d sx sy step tick rc cv b with
      | none => none
      | some (rc1, cv1, keep) =>
        drawPass R d sx sy step tick n
          (rc1, cv1, if keep then ring1 ++ [b] else ring1) := rfl

theorem drawPass_char (R : RngModel) (hR : R.SizeLtSound) (d : LayerDesc)
    (sx sy step tick : Nat) (hspeed : 0 < d.speed) :
    ∀ (pending done : List Building) (rc : Nat) (cv : Vec2D Nat),
    (∀ b ∈ pending, b.spawn_tick ≤ tick + TICK_WRAP ∧ 2 ≤ b.size_y) →
    cv.Dim sx sy →
    ∃ cv', drawPass R d sx sy step tick pending.length (rc, cv, pending ++ done) =
        some (rcFold sx step d.speed tick rc pending, cv',
          done ++ pending.filter (keepB sx step d.speed tick)) ∧
      cv'.Dim sx sy := by
  intro pending
  induction pending with
  | nil =>
    intro done rc cv _ hd
    refine ⟨cv, ?_, hd⟩
    simp only [List.length_nil, drawPass, List.nil_append, rcFold,
      List.foldl_nil, List.filter_nil, List.append_nil]
  | cons b pending ih =>
    intro done rc cv hb hd
    obtain ⟨cv1, hpb, hd1, _⟩ := processBuilding_char R hR d sx sy step tick rc
      cv b hd hspeed (hb b (List.mem_cons_self b pending)).1
      (hb b (List.mem_cons_self b pending)).2
    by_cases hk : keepB sx step d.speed tick b = true
    · rw [hk] at hpb
      simp only [if_true] at hpb
      obtain ⟨cv', hloop, hd'⟩ := ih (done ++ [b])
        (max rc (xPosOf sx step d.speed tick b + b.size_x + COLLISION_GAP))
        cv1 (fun b' hb' => hb b' (List.mem_cons_of_mem b hb')) hd1
      refine ⟨cv', ?_, hd'⟩
      rw [List.length_cons, List.cons_append, drawPass_succ_cons]
      simp only [hpb, if_true]
      rw [show (pending ++ done) ++ [b] = pending ++ (done ++ [b]) by
        rw [List.append_assoc]]
      rw [hloop]
      simp [rcFold, List.filter_cons, hk, List.append_assoc]
    · have hkf : keepB sx step d.speed tick b = false := by
        revert hk; cases keepB sx step d.speed tick b <;> simp
      rw [hkf] at hpb
      simp only [Bool.false_eq_true, if_false] at hpb
      obtain ⟨cv', hloop, hd'⟩ := ih done rc cv1
        (fun b' hb' => hb b' (List.mem_cons_of_mem b hb')) hd1
      refine ⟨cv', ?_, hd'⟩
      rw [List.length_cons, List.cons_append, drawPass_succ_cons]
      simp only [hpb, Bool.false_eq_true, if_false]
      rw [hloop]
      simp [rcFold, List.filter_cons, hkf]

theorem spawnStep_char (R : RngModel) (hR : R.SizeLtSound)
    (sx sy tick : Nat) (d : LayerDesc) (l : Layer)
    (rngst : Nat) (hspeed : 0 < d.speed) (hwall : d.wall_color ≠ [])
    (hsy : 8 ≤ sy) :
    (spawnCond R sx tick d l rngst →
      spawnStep R sx sy tick d l rngst =
        some (l.ring ++ [spawnBuilding R sy tick d rngst],
          spawnRngOut R sy d rngst)) ∧
    (¬spawnCond R sx tick d l rngst →
      spawnStep R sx sy tick d l rngst =
        some (l.ring, if tick % d.speed = 0 then (R.f32 rngst).2 else rngst)) := by
  have hclpos : 0 < d.wall_color.length := List.length_pos.mpr hwall
  rcases hf : R.f32 rngst with ⟨r, rng1⟩
  by_cases hmod : tick % d.speed = 0
  · by_cases hlt : r < R.powf
        (if l.rightmost_building_rcx > sx then d.collision else d.density)
        PROBABILITY_CURVE
    · have hcond : spawnCond R sx tick d l rngst := by
        rw [spawnCond, hf]
        exact ⟨hmod, hlt⟩
      constructor
      · intro _
        rw [spawnStep]
        rw [if_neg (Nat.pos_iff_ne_zero.mp hspeed), if_pos hmod, hf]
        simp only [if_pos hlt]
        by_cases hcl : d.wall_color.length > 1
        · rcases hu : R.usizeLt d.wall_color.length rng1 with ⟨ci, rng2⟩
          have hci : ci < d.wall_color.length := by
            have h' := hR d.wall_color.length rng1 hclpos
            rw [hu] at h'
            exact h'
          rcases hv : R.usizeRange 6 25 rng2 with ⟨bsx, rng3⟩
          rcases hw : R.usizeRange 10 (sy + 2) rng3 with ⟨bsy, rng4⟩
          simp only [if_pos hcl, rngUsizeLt,
            if_neg (Nat.pos_iff_ne_zero.mp hclpos), hu, rngUsizeRange,
            if_pos (by norm_num : (6 : Nat) ≤ 25),
            if_pos (by omega : 10 ≤ sy + 2), hv, hw,
            list_get?_getD _ _ hci]
          simp only [spawnBuilding, spawnRngOut, hf, if_pos hcl, hu, hv, hw]
        · rcases hv : R.usizeRange 6 25 rng1 with ⟨bsx, rng3⟩
          rcases hw : R.usizeRange 10 (sy + 2) rng3 with ⟨bsy, rng4⟩
          simp only [if_neg hcl, rngUsizeRange,
            if_pos (by norm_num : (6 : Nat) ≤ 25),
            if_pos (by omega : 10 ≤ sy + 2), hv, hw,
            list_get?_getD _ _ hclpos]
          simp only [spawnBuilding, spawnRngOut, hf, if_neg hcl, hv, hw]
      · intro hncond
        exact absurd hcond hncond
    · have hncond : ¬spawnCond R sx tick d l rngst := by
        rw [spawnCond, hf]
        intro hc
        exact hlt hc.2
      constructor
      · intro hcond
        exact absurd hcond hncond
      · intro _
        rw [spawnStep]
        rw [if_neg (Nat.pos_iff_ne_zero.mp hspeed), if_pos hmod, hf]
        simp only [if_neg hlt, if_pos hmod]
  · have hncond : ¬spawnCond R sx tick d l rngst := by
      rw [spawnCond]
      intro hc
      exact hmod hc.1
    constructor
    · intro hcond
      exact absurd hcond hncond
    · intro _
      rw [spawnStep]
      rw [if_neg (Nat.pos_iff_ne_zero.mp hspeed), if_neg hmod, if_neg hmod]

theorem spawnBuilding_props (R : RngModel) (hRange : R.SizeRangeSound)
    (sy tick : Nat) (d : LayerDesc) (rngst : Nat) (hsy : 8 ≤ sy) :
    6 ≤ (spawnBuilding R sy tick d rngst).size_x ∧
    (spawnBuilding R sy tick d rngst).size_x ≤ 25 ∧
    10 ≤ (spawnBuilding R sy tick d rngst).size_y ∧
    (spawnBuilding R sy tick d rngst).size_y ≤ sy + 2 ∧
    (spawnBuilding R sy tick d rngst).spawn_tick = tick := by
  have h1 := hRange 6 25 (if 1 < d.wall_color.length
    then (R.usizeLt d.wall_color.length (R.f32 rngst).2).2
    else (R.f32 rngst).2) (by norm_num)
  have h2 := hRange 10 (sy + 2) ((R.usizeRange 6 25
    (if 1 < d.wall_color.length
      then (R.usizeLt d.wall_color.length (R.f32 rngst).2).2
      else (R.f32 rngst).2)).2) (by omega)
  simp only [spawnBuilding]
  exact ⟨h1.1, h1.2, h2.1, h2.2, trivial⟩

theorem cityLayerStep_char (R : RngModel) (hR : R.SizeLtSound)
    (hRange : R.SizeRangeSound) (d : LayerDesc) (l : Layer)
    (sx sy step tick rngst : Nat) (cv : Vec2D Nat) (out : List Layer)
    (hspeed : 0 < d.speed) (hwall : d.wall_color ≠ []) (hsy : 8 ≤ sy)
    (htk : tick ≤ TICK_WRAP)
    (hbld : ∀ b ∈ l.ring, b.spawn_tick ≤ TICK_WRAP ∧ 2 ≤ b.size_y)
    (hd : cv.Dim sx sy) :
    (spawnCond R sx tick d l rngst →
      ∃ cv', cityLayerStep R sx sy step tick (rngst, cv, out) (d, l) =
        some (spawnRngOut R sy d rngst, cv',
          out ++ [⟨(l.ring ++ [spawnBuilding R sy tick d rngst]).filter
                     (keepB sx step d.speed tick),
                   rcFold sx step d.speed tick 0
                     (l.ring ++ [spawnBuilding R sy tick d rngst])⟩]) ∧
        cv'.Dim sx sy) ∧
    (¬spawnCond R sx tick d l rngst →
      ∃ cv', cityLayerStep R sx sy step tick (rngst, cv, out) (d, l) =
        some ((if tick % d.speed = 0 then (R.f32 rngst).2 else rngst), cv',
          out ++ [⟨l.ring.filter (keepB sx step d.speed tick),
                   rcFold sx step d.speed tick 0 l.ring⟩]) ∧
        cv'.Dim sx sy) := by
  obtain ⟨hs1, hs2⟩ := spawnStep_char R hR sx sy tick d l rngst hspeed hwall hsy
  constructor
  · intro hcond
    have hb1 : ∀ b ∈ l.ring ++ [spawnBuilding R sy tick d rngst],
        b.spawn_tick ≤ tick + TICK_WRAP ∧ 2 ≤ b.size_y := by
      intro b hb
      rcases List.mem_append.mp hb with hbo | hbn
      · have := hbld b hbo
        omega
      · have hbn' : b = spawnBuilding R sy tick d rngst :=
          List.mem_singleton.mp hbn
        subst hbn'
        have := spawnBuilding_props R hRange sy tick d rngst hsy
        omega
    have hpass := drawPass_char R hR d sx sy step tick hspeed
      (l.ring ++ [spawnBuilding R sy tick d rngst]) [] 0 cv hb1 hd
    obtain ⟨cv', hloop, hd'⟩ := hpass
    rw [List.append_nil] at hloop
    refine ⟨cv', ?_, hd'⟩
    rw [cityLayerStep]
    simp only [hs1 hcond, hloop, List.nil_append]
  · intro hncond
    have hb1 : ∀ b ∈ l.ring, b.spawn_tick ≤ tick + TICK_WRAP ∧ 2 ≤ b.size_y := by
      intro b hb
      have := hbld b hb
      omega
    obtain ⟨cv', hloop, hd'⟩ := drawPass_char R hR d sx sy step tick hspeed
      l.ring [] 0 cv hb1 hd
    rw [List.append_nil] at hloop
    refine ⟨cv', ?_, hd'⟩
    rw [cityLayerStep]
    simp only [hs2 hncond, hloop, List.nil_append]

theorem layersLoop_total (R : RngModel) (hR : R.SizeLtSound)
    (hRange : R.SizeRangeSound) (sx sy step tick : Nat) (hsy : 8 ≤ sy)
    (htk : tick ≤ TICK_WRAP) :
    ∀ (dls : List (LayerDesc × Layer)) (rngst : Nat) (cv : Vec2D Nat)
      (out : List Layer),
    (∀ dl ∈ dls, GoodDesc dl.1) →
    (∀ dl ∈ dls, ∀ b ∈ dl.2.ring, b.spawn_tick ≤ TICK_WRAP ∧ 2 ≤ b.size_y) →
    cv.Dim sx sy →
    ∃ rng' cv' newls,
      layersLoop R sx sy step tick dls (rngst, cv, out) =
        some (rng', cv', out ++ newls) ∧ cv'.Dim sx sy ∧
      ∀ l ∈ newls, ∀ b ∈ l.ring, b.spawn_tick ≤ TICK_WRAP ∧ 2 ≤ b.size_y := by
  intro dls
  induction dls with
  | nil =>
    intro rngst cv out _ _ hd
    exact ⟨rngst, cv, [], by simp [layersLoop], hd, by intro l hl; cases hl⟩
  | cons dl rest ih =>
    rcases dl with ⟨d, l⟩
    intro rngst cv out hgood hbld hd
    have hgd : GoodDesc d := hgood (d, l) (List.mem_cons_self _ _)
    have hbl : ∀ b ∈ l.ring, b.spawn_tick ≤ TICK_WRAP ∧ 2 ≤ b.size_y :=
      hbld (d, l) (List.mem_cons_self _ _)
    obtain ⟨hstep1, hstep2⟩ := cityLayerStep_char R hR hRange d l sx sy step
      tick rngst cv out hgd.speed_pos hgd.wall_nonempty hsy htk hbl hd
    by_cases hcond : spawnCond R sx tick d l rngst
    · obtain ⟨cv1, hstep, hd1⟩ := hstep1 hcond
      obtain ⟨rng', cv', newls, hloop, hd', hnew⟩ := ih (spawnRngOut R sy d rngst)
        cv1 (out ++ [⟨(l.ring ++ [spawnBuilding R sy tick d rngst]).filter
            (keepB sx step d.speed tick),
          rcFold sx step d.speed tick 0
            (l.ring ++ [spawnBuilding R sy tick d rngst])⟩])
        (fun dl' hdl' => hgood dl' (List.mem_cons_of_mem _ hdl'))
        (fun dl' hdl' => hbld dl' (List.mem_cons_of_mem _ hdl')) hd1
      refine ⟨rng', cv',
        ⟨(l.ring ++ [spawnBuilding R sy tick d rngst]).filter
            (keepB sx step d.speed tick),
          rcFold sx step d.speed tick 0
            (l.ring ++ [spawnBuilding R sy tick d rngst])⟩ :: newls, ?_, hd', ?_⟩
      · rw [layersLoop, hstep, Option.some_bind, hloop, List.append_assoc]
        rfl
      · intro lyr hlyr b hb
        rcases List.mem_cons.mp hlyr with hlyr1 | hlyr2
        · subst hlyr1
          simp only [List.mem_filter] at hb
          rcases List.mem_append.mp hb.1 with hbo | hbn
          · exact hbl b hbo
          · have hbn' : b = spawnBuilding R sy tick d rngst :=
              List.mem_singleton.mp hbn
            subst hbn'
            have := spawnBuilding_props R hRange sy tick d rngst hsy
            omega
        · exact hnew lyr hlyr2 b hb
    · obtain ⟨cv1, hstep, hd1⟩ := hstep2 hcond
      obtain ⟨rng', cv', newls, hloop, hd', hnew⟩ := ih
        (if tick % d.speed = 0 then (R.f32 rngst).2 else rngst) cv1
        (out ++ [⟨l.ring.filter (keepB sx step d.speed tick),
          rcFold sx step d.speed tick 0 l.ring⟩])
        (fun dl' hdl' => hgood dl' (List.mem_cons_of_mem _ hdl'))
        (fun dl' hdl' => hbld dl' (List.mem_cons_of_mem _ hdl')) hd1
      refine ⟨rng', cv',
        ⟨l.ring.filter (keepB sx step d.speed tick),
          rcFold sx step d.speed tick 0 l.ring⟩ :: newls, ?_, hd', ?_⟩
      · rw [layersLoop, hstep, Option.some_bind, hloop, List.append_assoc]
        rfl
      · intro lyr hlyr b hb
        rcases List.mem_cons.mp hlyr with hlyr1 | hlyr2
        · subst hlyr1
          simp only [List.mem_filter] at hb
          exact hbl b hb.1
        · exact hnew lyr hlyr2 b hb

theorem next_tick_total (R : RngModel) (hR : R.SizeLtSound)
    (hRange : R.SizeRangeSound) (c : City) (hinv : CityInv c) :
    ∃ c', next_tick R c = some c' ∧ CityInv c' := by
  obtain ⟨h1, h2, h3⟩ := hinv.dim
  have hd0 : (c.canvas.fill_with c.background).Dim c.size.1 c.size.2 := by
    refine ⟨h1, h2, ?_⟩
    simp [Vec2D.fill_with, h1, h2]
  obtain ⟨rng', cv', newls, hloop, hd', hnew⟩ :=
    layersLoop_total R hR hRange c.size.1 c.size.2 c.step c.tick hinv.h8
      hinv.tick_ub (c.layers_desc.zip c.layers) c.rng
      (c.canvas.fill_with c.background) []
      (by
        intro dl hdl
        rcases dl with ⟨d, l⟩
        exact hinv.good d (List.mem_zip hdl).1)
      (by
        intro dl hdl
        rcases dl with ⟨d, l⟩
        exact hinv.bld l (List.mem_zip hdl).2)
      hd0
  rw [List.nil_append] at hloop
  refine ⟨{ c with
      rng := rng'
      canvas := cv'
      layers := newls
      tick := if c.tick + 1 > TICK_WRAP then 1 else c.tick + 1 }, ?_, ?_⟩
  · rw [next_tick]
    simp only [hloop]
  · have htick1 : 1 ≤ (if c.tick + 1 > TICK_WRAP then 1 else c.tick + 1) := by
      by_cases hw : c.tick + 1 > TICK_WRAP
      · rw [if_pos hw]
      · rw [if_neg hw]
        omega
    have htick2 : (if c.tick + 1 > TICK_WRAP then 1 else c.tick + 1) ≤
        TICK_WRAP := by
      have := hinv.tick_ub
      by_cases hw : c.tick + 1 > TICK_WRAP
      · rw [if_pos hw, TICK_WRAP]
        omega
      · rw [if_neg hw]
        omega
    exact ⟨hd', hinv.h8, htick1, htick2, hinv.good, fun l hl b hb => hnew l hl b hb⟩

theorem cityInv_new (w h step seed bg : Nat) (descs : List LayerDesc)
    (h8 : 8 ≤ h) (hgood : ∀ d ∈ descs, GoodDesc d) :
    CityInv (City.new w h step seed bg descs) := by
  refine ⟨⟨rfl, rfl, by simp [City.new, Vec2D.new]⟩, h8, le_refl 1, ?_, hgood, ?_⟩
  · show (1 : Nat) ≤ TICK_WRAP
    rw [TICK_WRAP]
    omega
  · intro l hl b hb
    have hl' : l = ⟨[], 0⟩ := List.eq_of_mem_replicate hl
    subst hl'
    cases hb

theorem cityInv_set_wh (c : City) (w h : Nat) (hinv : CityInv c) (h8 : 8 ≤ h) :
    CityInv (c.set_wh w h) := by
  exact ⟨⟨rfl, rfl, by simp [City.set_wh, Vec2D.new]⟩, h8, hinv.tick_lb,
    hinv.tick_ub, hinv.good, hinv.bld⟩

theorem reachable_inv (R : RngModel) (hR : R.SizeLtSound)
    (hRange : R.SizeRangeSound) (c : City) (h : Reachable R c) : CityInv c := by
  induction h with
  | init w h step seed bg descs hstep hstep2 h8 hgood =>
    exact cityInv_new w h step seed bg descs h8 hgood
  | tick c c' hreach htick ih =>
    obtain ⟨c'', htick', hinv'⟩ := next_tick_total R hR hRange c ih
    rw [htick] at htick'
    injection htick' with heq
    rw [heq]
    exact hinv'
  | resize c w h hreach h8 ih =>
    exact cityInv_set_wh c w h ih h8

theorem fresh_geom (sx step speed tick : Nat) (b : Building)
    (hb : b.spawn_tick = tick) :
    elapsedOf tick b = 0 ∧ offXOf sx step speed tick b = 0 ∧
    xPosOf sx step speed tick b = sx ∧ keepB sx step speed tick b = true := by
  have he : elapsedOf tick b = 0 := by
    rw [elapsedOf, wrapTick, hb, if_neg (lt_irrefl tick)]
    omega
  have hx : xRaw sx step speed (elapsedOf tick b) = (sx : Int) := by
    rw [he, xRaw]
    simp
  have hnn : ¬(xRaw sx step speed (elapsedOf tick b) < 0) := by
    rw [hx]
    omega
  have hoff : offXOf sx step speed tick b = 0 := by
    rw [offXOf, offXPair, if_neg hnn]
  have hpos : xPosOf sx step speed tick b = sx := by
    rw [xPosOf, offXPair, if_neg hnn, hx]
    simp
  refine ⟨he, hoff, hpos, ?_⟩
  rw [keepB, hoff]
  simp

/-- C9: `set_wh` changes only the viewport size and the canvas
(reallocated to the new dimensions and filled with the background
color); the tick counter, the RNG state, the step, the descriptors and
every layer (hence every building's count, order, sizes, spawn tick,
wall color and instance seed) are left unchanged, and the following
`next_tick` operates on the state with the new dimensions. -/
theorem C9_resize_frame (c : City) (w h : Nat) :
    (c.set_wh w h).size = (w, h) ∧
    (c.set_wh w h).canvas = Vec2D.new w h c.background ∧
    (c.set_wh w h).tick = c.tick ∧
    (c.set_wh w h).rng = c.rng ∧
    (c.set_wh w h).step = c.step ∧
    (c.set_wh w h).background = c.background ∧
    (c.set_wh w h).layers_desc = c.layers_desc ∧
    (c.set_wh w h).layers = c.layers :=
  ⟨rfl, rfl, rfl, rfl, rfl, rfl, rfl, rfl⟩

/-- C4: for a fixed RNG model, configuration and seed, iterating
`next_tick` `t` times from a fresh `City` is a pure function of
(configuration, seed, t): two runs from scratch agree on the full
state, hence on grid contents and tick counter, after every tick. -/
theorem C4_determinism (R : RngModel) (w h step seed bg : Nat)
    (descs : List LayerDesc) (c1 c2 : City) (t : Nat)
    (h1 : c1 = City.new w h step seed bg descs)
    (h2 : c2 = City.new w h step seed bg descs) :
    runTicks R c1 t = runTicks R c2 t ∧
    (runTicks R c1 t).map City.canvas = (runTicks R c2 t).map City.canvas ∧
    (runTicks R c1 t).map City.tick = (runTicks R c2 t).map City.tick := by
  subst h1
  subst h2
  exact ⟨rfl, rfl, rfl⟩

theorem C4_determinism_witness :
    runTicks rngC cityC1 3 = runTicks rngC (City.new 50 10 1 0 107 [dC1]) 3 ∧
    (runTicks rngC cityC1 3).map City.canvas =
      (runTicks rngC (City.new 50 10 1 0 107 [dC1]) 3).map City.canvas ∧
    (runTicks rngC cityC1 3).map City.tick =
      (runTicks rngC (City.new 50 10 1 0 107 [dC1]) 3).map City.tick :=
  C4_determinism rngC 50 10 1 0 107 [dC1] cityC1
    (City.new 50 10 1 0 107 [dC1]) 3 rfl rfl

/-- C3: evaluation of `row_iter` on a 2×5 grid holding `0,…,9`.
`get_row` itself returns the correct contiguous row (second conjunct),
but `row_iter` feeds the raw start offsets `0, w, 2w, …` back into the
row-indexed `get_row`, so it yields rows `0, 2, 4` and then two
out-of-range lookups (`none`) instead of rows `0, 1, 2, 3, 4`. -/
theorem C3_row_iter_bug :
    (Vec2D.mk (List.range 10) 2 5).row_iter =
      some [some [0, 1], some [4, 5], some [8, 9], none, none] ∧
    (Vec2D.mk (List.range 10) 2 5).get_row? 1 = some [2, 3] := by
  exact ⟨rfl, rfl⟩

/-- C1 counterexample: in a fresh 50×10 one-layer city whose first tick
spawns a building (size_x = 6 under `rngC`), the real `next_tick`
processes the just-spawned building in the same tick's draw pass — the
stored rightmost extent becomes 50 + 6 + 2 = 58 — whereas the
spec-modelled variant that drains only the pre-spawn length (an empty
buffer) leaves it 0.  The claim that a building spawned in step (a) is
not processed by the same tick's pass is therefore false. -/
theorem C1_counterexample :
    (next_tick rngC cityC1).map layer0rcx = some 58 ∧
    (next_tickPre rngC cityC1).map layer0rcx = some 0 := by
  exact ⟨rfl, rfl⟩

/-- C1 (amended): the draw pass drains the post-spawn length, so a
building spawned in step (a) IS processed by the same tick's pass; but
its processing paints nothing that tick — at `x = width` its on-screen
width is zero, so `draw_building` returns the canvas unchanged — and it
is re-queued and contributes `width + size_x + COLLISION_GAP` to the
rightmost extent. -/
theorem C1_spawned_processed_but_not_painted (R : RngModel) (d : LayerDesc)
    (sx sy step tick rc : Nat) (cv : Vec2D Nat) (b : Building)
    (hb : b.spawn_tick = tick) (hspeed : 0 < d.speed) :
    processBuilding R d sx sy step tick rc cv b =
      some (max rc (sx + b.size_x + COLLISION_GAP), cv, true) := by
  obtain ⟨he, hoff, hpos, hkeep⟩ := fresh_geom sx step d.speed tick b hb
  have hwt : wrapTick tick b = tick := by
    rw [wrapTick, hb, if_neg (lt_irrefl tick)]
  have hcsub : csub (wrapTick tick b) b.spawn_tick = some (elapsedOf tick b) := by
    rw [csub, if_pos (by rw [hwt, hb]), elapsedOf]
  have hpair : offXPair (xRaw sx step d.speed (elapsedOf tick b)) = (0, sx) :=
    Prod.ext hoff hpos
  have hc2 : csub sx sx = some 0 := by
    rw [csub, if_pos (le_refl sx)]
    simp
  rw [processBuilding, hcsub]
  simp only [Nat.pos_iff_ne_zero.mp hspeed, if_false, hpair]
  rw [if_neg (by omega : ¬(0 : Nat) > b.size_x)]
  rcases hyo : offYPair sy b with ⟨offy, ypos⟩
  simp only [hc2]
  have hdraw : draw_building R cv b d (sx, ypos) (0, offy)
      (min (b.size_x - 0) 0, min (b.size_y - offy) sy) = some cv := by
    rw [draw_building]
    rw [if_pos (Or.inl (by simp))]
  rw [hdraw]

theorem C1_spawned_processed_witness :
    processBuilding rngC dC1 50 10 1 7 3 cvC2 ⟨6, 10, 7, 47, 0⟩ =
      some (max 3 (50 + 6 + COLLISION_GAP), cvC2, true) :=
  C1_spawned_processed_but_not_painted rngC dC1 50 10 1 7 3 cvC2
    ⟨6, 10, 7, 47, 0⟩ rfl (by decide)

/-- C5 counterexample: from a fresh 50×10 city satisfying all the
claim's preconditions, resizing to height 5 (which the claim permits)
and ticking hits the empty random range `usize(10..=7)` for the new
building's height as soon as a spawn roll succeeds: the embedded
`next_tick` returns `none` (the code panics). -/
theorem C5_counterexample :
    next_tick rngC (cityC1.set_wh 50 5) = none := by
  exact rfl

/-- C5 (amended): with the claim's configuration preconditions and
every height (initial and resized) at least 8, `next_tick` is total on
every reachable state: no division or modulo by zero, no subtraction
underflow, no out-of-bounds grid or color-set index and no empty
random-sampling range occurs (all such traps are `none` in the
embedding). -/
theorem C5_total_on_reachable (R : RngModel) (hR : R.SizeLtSound)
    (hRange : R.SizeRangeSound) (c : City) (h : Reachable R c) :
    ∃ c', next_tick R c = some c' := by
  obtain ⟨c', h1, _⟩ :=
    next_tick_total R hR hRange c (reachable_inv R hR hRange c h)
  exact ⟨c', h1⟩

theorem C5_total_witness :
    ∃ c', next_tick rngC cityC1 = some c' :=
  C5_total_on_reachable rngC (fun _ _ hn => hn)
    (fun a b _ hab => ⟨le_refl a, hab⟩) cityC1
    (Reachable.init 50 10 1 0 107 [dC1] (by decide) (by decide) (by decide)
      (by
        intro d hd
        have hd' : d = dC1 := List.mem_singleton.mp hd
        subst hd'
        exact ⟨by decide, by decide, by norm_num [dC1], by norm_num [dC1],
          by norm_num [dC1], by norm_num [dC1]⟩))

set_option maxRecDepth 4000 in
/-- C2 counterexample: the same building (`bC2`, wall color 5, window
color 9) drawn unclipped (`offset_x = 0`, limits `(20, 12)`) and
clipped at `offset_x = 4` (with the corresponding limits
`(16, 12) = (size_x − offset_x, size_y)`) paints DIFFERENT colors at
the same absolute in-building cell `(column 4, row 3)`: the window
color 9 versus the wall color 5.  The clip boundary at `offset_x = 4`
falls on the second column of a window unit, whose color draw happens
only at the (clipped-away) first column, so the held window color is
still the wall color.  This refutes the claim as stated. -/
theorem C2_counterexample :
    ((draw_building rngC cvC2 bC2 dC2 (0, 0) (0, 0) (20, 12)).bind
      (fun c => c.getCell? (0 + (4 - 0)) (0 + (3 - 0))) = some 9) ∧
    ((draw_building rngC cvC2 bC2 dC2 (0, 0) (4, 0) (16, 12)).bind
      (fun c => c.getCell? (0 + (4 - 4)) (0 + (3 - 0))) = some 5) := by
  exact ⟨rfl, rfl⟩

/-- C2 (amended): on window-band rows, the color `draw_building` paints
at absolute in-building cell `(x, y)` equals the pure function
`pureWndColor` of the building, descriptor and cell alone — hence it is
identical under every horizontal offset and clipping that leaves the
cell visible — PROVIDED the clip boundary does not split a window unit
at this cell (`hside`: if the cell is a window unit's second column,
its first column is visible too).  In that excluded boundary case the
wall color is painted instead (see the counterexample). -/
theorem C2_window_color_pure (R : RngModel) (hR : R.SizeLtSound)
    (cv : Vec2D Nat) (b : Building) (layer : LayerDesc)
    (cx cy ox oy lw lh x y sx sy : Nat) (hd : cv.Dim sx sy)
    (hw : cx + min b.size_x lw ≤ sx) (hh : cy + min b.size_y lh ≤ sy)
    (hdw : layer.draw_windows = true) (hlen : 0 < layer.window_colors.length)
    (hsw : WINDOW_PAD_L + WINDOW_PAD_R + WINDOW_X ≤ b.size_x)
    (hxv1 : ox ≤ x) (hxv2 : x < ox + min b.size_x lw)
    (hyv1 : oy ≤ y) (hyv2 : y < oy + min b.size_y lh)
    (hband1 : ROOF_GAP_Y + WINDOW_PAD_T ≤ y)
    (hband2 : y < b.size_y - WINDOW_PAD_B)
    (hband3 : (y - (ROOF_GAP_Y + WINDOW_PAD_T)) % (WINDOW_Y + WINDOW_SPC_Y) <
      WINDOW_Y)
    (hside : (x - WINDOW_PAD_L) % (WINDOW_X + WINDOW_SPC_X) = 1 →
      WINDOW_PAD_L ≤ x → ox < x) :
    ∃ cv', draw_building R cv b layer (cx, cy) (ox, oy) (lw, lh) = some cv' ∧
      cv'.getCell? (cx + (x - ox)) (cy + (y - oy)) =
        some (pureWndColor R layer b x y) := by
  have hskip : ¬(lw = 0 ∨ lh = 0 ∨ b.size_x < ROOF_GAP_X * 2 ∨
      b.size_x < WINDOW_PAD_L + WINDOW_PAD_R + WINDOW_X) := by
    simp only [ROOF_GAP_X, WINDOW_PAD_L, WINDOW_PAD_R, WINDOW_X] at *
    omega
  have h1 : csub b.size_x ROOF_GAP_X = some (b.size_x - ROOF_GAP_X) := by
    rw [csub, if_pos (by
      simp only [ROOF_GAP_X, WINDOW_PAD_L, WINDOW_PAD_R, WINDOW_X] at hsw ⊢
      omega)]
  have h2 : csub b.size_x WINDOW_PAD_R = some (b.size_x - WINDOW_PAD_R) := by
    rw [csub, if_pos (by
      simp only [WINDOW_PAD_L, WINDOW_PAD_R, WINDOW_X] at hsw ⊢
      omega)]
  have h3 : csub b.size_y WINDOW_PAD_B = some (b.size_y - WINDOW_PAD_B) := by
    rw [csub, if_pos (by simp only [WINDOW_PAD_B] at hband2 ⊢; omega)]
  rcases hu32 : R.u32 b.seed with ⟨sf, rng1⟩
  obtain ⟨rs', cv', hloop, hd', hvals⟩ :=
    rowsLoop_wnd_char R hR layer.window_colors
      (layer.draw_windows = true ∧ 0 < layer.window_colors.length)
      (fun hc => hc.2) b.color sf (b.size_x - ROOF_GAP_X)
      (b.size_x - WINDOW_PAD_R) (b.size_y - WINDOW_PAD_B) cx cy ox oy
      (min b.size_x lw) y ⟨⟨hdw, hlen⟩, hband1, hband2, hband3⟩
      (min b.size_y lh) oy rng1 cv hd (le_refl oy) (by omega) hw hyv1
      (by omega)
  refine ⟨cv', ?_, ?_⟩
  · simp only [draw_building, if_neg hskip, hu32, h1, h2, h3, hloop]
    rfl
  · have hv := hvals (x - ox) (by omega)
    have hox : ox + (x - ox) = x := by omega
    rw [hox] at hv
    rw [hv]
    have hsf : (R.u32 b.seed).1 = sf := by rw [hu32]
    have heq := wndCellColor_eq_pure R layer b x y ox hside
    rw [hsf] at heq
    rw [heq]

set_option maxRecDepth 4000 in
theorem C2_window_color_witness :
    ∃ cv', draw_building rngC cvC2 bC2 dC2 (0, 0) (0, 0) (20, 12) = some cv' ∧
      cv'.getCell? (0 + (8 - 0)) (0 + (3 - 0)) =
        some (pureWndColor rngC dC2 bC2 8 3) :=
  C2_window_color_pure rngC (fun _ _ hn => hn) cvC2 bC2 dC2 0 0 0 0 20 12 8 3
    30 12 ⟨rfl, rfl, by decide⟩ (by decide) (by decide) rfl (by decide)
    (by decide) (by decide) (by decide) (by decide) (by decide) (by decide)
    (by decide) (by decide) (fun _ _ => by decide)

/-- C6: on each eligible tick a building is appended to the layer's
ring iff `tick % speed = 0` and the fresh uniform draw is strictly
below `threshold^2.5`, where the threshold is `collision` iff the
stored rightmost extent exceeds the viewport width and `density`
otherwise; a zero threshold never spawns, a threshold of one always
spawns on eligible ticks; and the appended building has `size_x` drawn
in `[6, 25]`, `size_y` drawn in `[10, height + 2]`, `spawn_tick` equal
to the current tick, a wall color indexed uniformly iff the wall set
has more than one entry (else entry 0), and a fresh 64-bit seed. -/
theorem C6_spawn_rule (R : RngModel) (hR : R.SizeLtSound)
    (hRange : R.SizeRangeSound) (hF : R.F32Sound)
    (hp0 : R.powf 0 PROBABILITY_CURVE = 0)
    (hp1 : R.powf 1 PROBABILITY_CURVE = 1)
    (sx sy tick : Nat) (d : LayerDesc) (l : Layer) (rngst : Nat)
    (hspeed : 0 < d.speed) (hwall : d.wall_color ≠ []) (hsy : 8 ≤ sy) :
    ∃ ring' rng', spawnStep R sx sy tick d l rngst = some (ring', rng') ∧
      (spawnCond R sx tick d l rngst ↔
        ring' = l.ring ++ [spawnBuilding R sy tick d rngst]) ∧
      (¬spawnCond R sx tick d l rngst → ring' = l.ring) ∧
      ((if l.rightmost_building_rcx > sx then d.collision else d.density) = 0 →
        ring' = l.ring) ∧
      ((if l.rightmost_building_rcx > sx then d.collision else d.density) = 1 →
        tick % d.speed = 0 →
        ring' = l.ring ++ [spawnBuilding R sy tick d rngst]) ∧
      6 ≤ (spawnBuilding R sy tick d rngst).size_x ∧
      (spawnBuilding R sy tick d rngst).size_x ≤ 25 ∧
      10 ≤ (spawnBuilding R sy tick d rngst).size_y ∧
      (spawnBuilding R sy tick d rngst).size_y ≤ sy + 2 ∧
      (spawnBuilding R sy tick d rngst).spawn_tick = tick ∧
      (spawnBuilding R sy tick d rngst).color =
        d.wall_color.getD (if 1 < d.wall_color.length
          then (R.usizeLt d.wall_color.length (R.f32 rngst).2).1 else 0) 0 ∧
      (spawnBuilding R sy tick d rngst).color ∈ d.wall_color := by
  have hclpos : 0 < d.wall_color.length := List.length_pos.mpr hwall
  have hprops := spawnBuilding_props R hRange sy tick d rngst hsy
  have hcolor : (spawnBuilding R sy tick d rngst).color =
      d.wall_color.getD (if 1 < d.wall_color.length
        then (R.usizeLt d.wall_color.length (R.f32 rngst).2).1 else 0) 0 := rfl
  have hci : (if 1 < d.wall_color.length
      then (R.usizeLt d.wall_color.length (R.f32 rngst).2).1 else 0) <
      d.wall_color.length := by
    by_cases hcl : 1 < d.wall_color.length
    · rw [if_pos hcl]
      exact hR d.wall_color.length (R.f32 rngst).2 hclpos
    · rw [if_neg hcl]
      exact hclpos
  have hmem : (spawnBuilding R sy tick d rngst).color ∈ d.wall_color := by
    rw [hcolor]
    exact List.get?_mem (list_get?_getD _ _ hci)
  obtain ⟨hs1, hs2⟩ := spawnStep_char R hR sx sy tick d l rngst hspeed hwall hsy
  by_cases hcond : spawnCond R sx tick d l rngst
  · refine ⟨l.ring ++ [spawnBuilding R sy tick d rngst],
      spawnRngOut R sy d rngst, hs1 hcond, ?_, ?_, ?_, ?_, hprops.1,
      hprops.2.1, hprops.2.2.1, hprops.2.2.2.1, hprops.2.2.2.2, hcolor, hmem⟩
    · exact ⟨fun _ => rfl, fun _ => hcond⟩
    · intro hn
      exact absurd hcond hn
    · intro h0
      exfalso
      have h2 := hcond.2
      rw [h0, hp0] at h2
      have h3 := (hF rngst).1
      exact absurd h2 (not_lt.mpr h3)
    · intro _ _
      rfl
  · refine ⟨l.ring, (if tick % d.speed = 0 then (R.f32 rngst).2 else rngst),
      hs2 hcond, ?_, fun _ => rfl, fun _ => rfl, ?_, hprops.1, hprops.2.1,
      hprops.2.2.1, hprops.2.2.2.1, hprops.2.2.2.2, hcolor, hmem⟩
    · constructor
      · intro hc
        exact absurd hc hcond
      · intro heq
        exfalso
        have hlen := congrArg List.length heq
        simp at hlen
    · intro h1 hmod
      exfalso
      apply hcond
      refine ⟨hmod, ?_⟩
      rw [h1, hp1]
      exact (hF rngst).2

theorem C6_spawn_rule_witness :
    ∃ ring' rng', spawnStep rngC 50 10 1 dC1 ⟨[], 0⟩ 0 = some (ring', rng') ∧
      (spawnCond rngC 50 1 dC1 ⟨[], 0⟩ 0 ↔
        ring' = [] ++ [spawnBuilding rngC 10 1 dC1 0]) ∧
      (¬spawnCond rngC 50 1 dC1 ⟨[], 0⟩ 0 → ring' = []) ∧
      ((if (0 : Nat) > 50 then dC1.collision else dC1.density) = 0 →
        ring' = []) ∧
      ((if (0 : Nat) > 50 then dC1.collision else dC1.density) = 1 →
        1 % dC1.speed = 0 → ring' = [] ++ [spawnBuilding rngC 10 1 dC1 0]) ∧
      6 ≤ (spawnBuilding rngC 10 1 dC1 0).size_x ∧
      (spawnBuilding rngC 10 1 dC1 0).size_x ≤ 25 ∧
      10 ≤ (spawnBuilding rngC 10 1 dC1 0).size_y ∧
      (spawnBuilding rngC 10 1 dC1 0).size_y ≤ 10 + 2 ∧
      (spawnBuilding rngC 10 1 dC1 0).spawn_tick = 1 ∧
      (spawnBuilding rngC 10 1 dC1 0).color =
        dC1.wall_color.getD (if 1 < dC1.wall_color.length
          then (rngC.usizeLt dC1.wall_color.length (rngC.f32 0).2).1 else 0) 0 ∧
      (spawnBuilding rngC 10 1 dC1 0).color ∈ dC1.wall_color :=
  C6_spawn_rule rngC (fun _ _ hn => hn) (fun a b _ hab => ⟨le_refl a, hab⟩)
    (fun _ => ⟨le_refl 0, show (0 : ℚ) < 1 by norm_num⟩) rfl rfl 50 10 1 dC1
    ⟨[], 0⟩ 0 (by decide) (by decide) (by decide)

/-- C7: for every processed building, the unwrapped elapsed value is
the current tick minus `spawn_tick` with `TICK_WRAP` added to the
current tick beforehand iff `spawn_tick` is numerically greater (and
the subtraction never underflows); the raw horizontal position is
`width − floor(elapsed · step / speed)` computed in signed arithmetic,
with `offset_x = |x|, x = 0` when negative and `offset_x = 0`
otherwise; vertically, a building taller than the viewport is
top-clipped (`offset_y = size_y − height, y = 0`) and a shorter one
sits flush to the bottom (`offset_y = 0, y = height − size_y`). -/
theorem C7_position_formulas (sx sy step speed tick : Nat) (b : Building)
    (hb1 : b.spawn_tick ≤ TICK_WRAP) :
    csub (wrapTick tick b) b.spawn_tick =
      some (tick + (if b.spawn_tick > tick then TICK_WRAP else 0) -
        b.spawn_tick) ∧
    elapsedOf tick b =
      tick + (if b.spawn_tick > tick then TICK_WRAP else 0) - b.spawn_tick ∧
    xRaw sx step speed (elapsedOf tick b) =
      (sx : Int) - ((elapsedOf tick b * step / speed : Nat) : Int) ∧
    (xRaw sx step speed (elapsedOf tick b) < 0 →
      offXOf sx step speed tick b =
        (xRaw sx step speed (elapsedOf tick b)).natAbs ∧
      xPosOf sx step speed tick b = 0) ∧
    (0 ≤ xRaw sx step speed (elapsedOf tick b) →
      offXOf sx step speed tick b = 0 ∧
      xPosOf sx step speed tick b =
        (xRaw sx step speed (elapsedOf tick b)).toNat) ∧
    (b.size_y > sy → offYPair sy b = (b.size_y - sy, 0)) ∧
    (b.size_y ≤ sy → offYPair sy b = (0, sy - b.size_y)) := by
  have hwt : wrapTick tick b =
      tick + (if b.spawn_tick > tick then TICK_WRAP else 0) := by
    rw [wrapTick]
    by_cases hgt : b.spawn_tick > tick
    · rw [if_pos hgt, if_pos hgt]
    · rw [if_neg hgt, if_neg hgt]
      omega
  have hle : b.spawn_tick ≤ wrapTick tick b := by
    rw [hwt]
    by_cases hgt : b.spawn_tick > tick
    · rw [if_pos hgt]
      omega
    · rw [if_neg hgt]
      omega
  refine ⟨?_, ?_, rfl, ?_, ?_, ?_, ?_⟩
  · rw [csub, if_pos hle, hwt]
  · rw [elapsedOf, hwt]
  · intro hneg
    constructor
    · rw [offXOf, offXPair, if_pos hneg]
    · rw [xPosOf, offXPair, if_pos hneg]
  · intro hpos
    constructor
    · rw [offXOf, offXPair, if_neg (not_lt.mpr hpos)]
    · rw [xPosOf, offXPair, if_neg (not_lt.mpr hpos)]
  · intro htall
    rw [offYPair, if_pos htall]
  · intro hshort
    rw [offYPair, if_neg (not_lt.mpr hshort)]

theorem C7_position_formulas_witness :
    csub (wrapTick 5 bC2) bC2.spawn_tick =
      some (5 + (if bC2.spawn_tick > 5 then TICK_WRAP else 0) -
        bC2.spawn_tick) ∧
    elapsedOf 5 bC2 =
      5 + (if bC2.spawn_tick > 5 then TICK_WRAP else 0) - bC2.spawn_tick ∧
    xRaw 50 1 1 (elapsedOf 5 bC2) =
      (50 : Int) - ((elapsedOf 5 bC2 * 1 / 1 : Nat) : Int) ∧
    (xRaw 50 1 1 (elapsedOf 5 bC2) < 0 →
      offXOf 50 1 1 5 bC2 = (xRaw 50 1 1 (elapsedOf 5 bC2)).natAbs ∧
      xPosOf 50 1 1 5 bC2 = 0) ∧
    (0 ≤ xRaw 50 1 1 (elapsedOf 5 bC2) →
      offXOf 50 1 1 5 bC2 = 0 ∧
      xPosOf 50 1 1 5 bC2 = (xRaw 50 1 1 (elapsedOf 5 bC2)).toNat) ∧
    (bC2.size_y > 10 → offYPair 10 bC2 = (bC2.size_y - 10, 0)) ∧
    (bC2.size_y ≤ 10 → offYPair 10 bC2 = (0, 10 - bC2.size_y)) :=
  C7_position_formulas 50 10 1 1 5 bC2 (by decide)

set_option maxRecDepth 4000 in
/-- C8: during a tick, a building is dropped from its layer's buffer
iff its computed `offset_x` exceeds its `size_x` (the complement is
exactly the re-queue condition `keepB`, the sole eviction path); the
post-pass ring is the order-preserving filter of the processed ring
(every survivor re-appended exactly once, FIFO order kept), so its
length is at most the pre-tick length plus one, and an evicted building
is not in the post-tick buffer. -/
theorem C8_eviction (R : RngModel) (hR : R.SizeLtSound)
    (hRange : R.SizeRangeSound) (d : LayerDesc) (l : Layer)
    (sx sy step tick rngst : Nat) (cv : Vec2D Nat) (out : List Layer)
    (hspeed : 0 < d.speed) (hwall : d.wall_color ≠ []) (hsy : 8 ≤ sy)
    (htk : tick ≤ TICK_WRAP)
    (hbld : ∀ b ∈ l.ring, b.spawn_tick ≤ TICK_WRAP ∧ 2 ≤ b.size_y)
    (hd : cv.Dim sx sy) :
    ∃ rng' cv' ring1,
      (ring1 = l.ring ∨ ring1 = l.ring ++ [spawnBuilding R sy tick d rngst]) ∧
      cityLayerStep R sx sy step tick (rngst, cv, out) (d, l) =
        some (rng', cv', out ++ [⟨ring1.filter (keepB sx step d.speed tick),
          rcFold sx step d.speed tick 0 ring1⟩]) ∧
      (∀ b : Building, keepB sx step d.speed tick b = true ↔
        offXOf sx step d.speed tick b ≤ b.size_x) ∧
      (∀ b : Building, keepB sx step d.speed tick b = false →
        b ∉ ring1.filter (keepB sx step d.speed tick)) ∧
      (ring1.filter (keepB sx step d.speed tick)).length ≤ l.ring.length + 1 := by
  have hkiff : ∀ b : Building, keepB sx step d.speed tick b = true ↔
      offXOf sx step d.speed tick b ≤ b.size_x := by
    intro b
    rw [keepB]
    exact decide_eq_true_iff
  have hnmem : ∀ (ring1 : List Building) (b : Building),
      keepB sx step d.speed tick b = false →
      b ∉ ring1.filter (keepB sx step d.speed tick) := by
    intro ring1 b hkf hmem
    have h2 := (List.mem_filter.mp hmem).2
    rw [hkf] at h2
    cases h2
  obtain ⟨hs1, hs2⟩ := cityLayerStep_char R hR hRange d l sx sy step tick
    rngst cv out hspeed hwall hsy htk hbld hd
  by_cases hcond : spawnCond R sx tick d l rngst
  · obtain ⟨cv', hstep, _⟩ := hs1 hcond
    refine ⟨spawnRngOut R sy d rngst, cv',
      l.ring ++ [spawnBuilding R sy tick d rngst], Or.inr rfl, hstep, hkiff,
      fun b => hnmem _ b, ?_⟩
    calc (List.filter (keepB sx step d.speed tick)
        (l.ring ++ [spawnBuilding R sy tick d rngst])).length
        ≤ (l.ring ++ [spawnBuilding R sy tick d rngst]).length :=
          List.length_filter_le _ _
      _ = l.ring.length + 1 := by simp
  · obtain ⟨cv', hstep, _⟩ := hs2 hcond
    refine ⟨(if tick % d.speed = 0 then (R.f32 rngst).2 else rngst), cv',
      l.ring, Or.inl rfl, hstep, hkiff, fun b => hnmem _ b, ?_⟩
    calc (List.filter (keepB sx step d.speed tick) l.ring).length
        ≤ l.ring.length := List.length_filter_le _ _
      _ ≤ l.ring.length + 1 := by omega

set_option maxRecDepth 4000 in
theorem C8_eviction_witness :
    ∃ rng' cv' ring1,
      (ring1 = ([] : List Building) ∨
        ring1 = [] ++ [spawnBuilding rngC 10 1 dC1 0]) ∧
      cityLayerStep rngC 50 10 1 1 (0, Vec2D.new 50 10 107, []) (dC1, ⟨[], 0⟩) =
        some (rng', cv', [] ++ [⟨ring1.filter (keepB 50 1 dC1.speed 1),
          rcFold 50 1 dC1.speed 1 0 ring1⟩]) ∧
      (∀ b : Building, keepB 50 1 dC1.speed 1 b = true ↔
        offXOf 50 1 dC1.speed 1 b ≤ b.size_x) ∧
      (∀ b : Building, keepB 50 1 dC1.speed 1 b = false →
        b ∉ ring1.filter (keepB 50 1 dC1.speed 1)) ∧
      (ring1.filter (keepB 50 1 dC1.speed 1)).length ≤
        ([] : List Building).length + 1 :=
  C8_eviction rngC (fun _ _ hn => hn) (fun a b _ hab => ⟨le_refl a, hab⟩)
    dC1 ⟨[], 0⟩ 50 10 1 1 0 (Vec2D.new 50 10 107) [] (by decide) (by decide)
    (by decide) (by decide) (fun b hb => absurd hb (List.not_mem_nil b))
    ⟨rfl, rfl, by decide⟩

/-- C10: if a building spawns on a layer during a tick, that same
tick's draw pass includes it in the rightmost-extent fold, so the
stored rightmost extent becomes at least `width + size_x +
COLLISION_GAP > width`; hence the threshold selector evaluated on the
resulting layer with the same width picks `collision`, not `density`. -/
theorem C10_spawn_forces_collision (R : RngModel) (hR : R.SizeLtSound)
    (hRange : R.SizeRangeSound) (d : LayerDesc) (l : Layer)
    (sx sy step tick rngst : Nat) (cv : Vec2D Nat) (out : List Layer)
    (hspeed : 0 < d.speed) (hwall : d.wall_color ≠ []) (hsy : 8 ≤ sy)
    (htk : tick ≤ TICK_WRAP)
    (hbld : ∀ b ∈ l.ring, b.spawn_tick ≤ TICK_WRAP ∧ 2 ≤ b.size_y)
    (hd : cv.Dim sx sy) (hcond : spawnCond R sx tick d l rngst) :
    ∃ rng' cv' l', cityLayerStep R sx sy step tick (rngst, cv, out) (d, l) =
        some (rng', cv', out ++ [l']) ∧
      sx + (spawnBuilding R sy tick d rngst).size_x + COLLISION_GAP ≤
        l'.rightmost_building_rcx ∧
      sx < l'.rightmost_building_rcx ∧
      (if l'.rightmost_building_rcx > sx then d.collision else d.density) =
        d.collision := by
  obtain ⟨hs1, _⟩ := cityLayerStep_char R hR hRange d l sx sy step tick
    rngst cv out hspeed hwall hsy htk hbld hd
  obtain ⟨cv', hstep, _⟩ := hs1 hcond
  have hfresh := fresh_geom sx step d.speed tick
    (spawnBuilding R sy tick d rngst)
    (spawnBuilding_props R hRange sy tick d rngst hsy).2.2.2.2
  have hge := rcFold_ge sx step d.speed tick
    (l.ring ++ [spawnBuilding R sy tick d rngst]) 0
    (spawnBuilding R sy tick d rngst) (by simp) hfresh.2.2.2
  rw [hfresh.2.2.1] at hge
  have hgt : sx < rcFold sx step d.speed tick 0
      (l.ring ++ [spawnBuilding R sy tick d rngst]) := by
    rw [COLLISION_GAP] at hge
    omega
  refine ⟨spawnRngOut R sy d rngst, cv',
    ⟨(l.ring ++ [spawnBuilding R sy tick d rngst]).filter
        (keepB sx step d.speed tick),
      rcFold sx step d.speed tick 0
        (l.ring ++ [spawnBuilding R sy tick d rngst])⟩, hstep, hge, hgt, ?_⟩
  rw [if_pos hgt]

set_option maxRecDepth 4000 in
theorem C10_spawn_forces_collision_witness :
    ∃ rng' cv' l',
      cityLayerStep rngC 50 10 1 1 (0, Vec2D.new 50 10 107, []) (dC1, ⟨[], 0⟩) =
        some (rng', cv', [] ++ [l']) ∧
      50 + (spawnBuilding rngC 10 1 dC1 0).size_x + COLLISION_GAP ≤
        l'.rightmost_building_rcx ∧
      50 < l'.rightmost_building_rcx ∧
      (if l'.rightmost_building_rcx > 50 then dC1.collision else dC1.density) =
        dC1.collision :=
  C10_spawn_forces_collision rngC (fun _ _ hn => hn)
    (fun a b _ hab => ⟨le_refl a, hab⟩) dC1 ⟨[], 0⟩ 50 10 1 1 0
    (Vec2D.new 50 10 107) [] (by decide) (by decide) (by decide) (by decide)
    (fun b hb => absurd hb (List.not_mem_nil b)) ⟨rfl, rfl, by decide⟩
    ⟨by decide, by decide⟩

end CityModel
